import Mathlib

/-!
Shallow embedding of the `uvm_sim` unified-virtual-memory simulator
(`src/vm/PageTable.cpp`, `src/vm/PageAllocator.cpp`, `src/vm/Policies.cpp`,
`src/vm/TLB.cpp`, `src/vm/MigrationManager.cpp`,
`src/vm/VirtualMemoryManager.cpp`).

Modelling conventions:
* machine integers are `Nat`; pointers are `Nat` with `0` standing for the
  null pointer; the device address base `0x100000000` is the literal
  `4294967296`;
* `std::unordered_map` becomes an association list, `std::unordered_set`
  becomes a list whose head plays the role of `begin()` (the iteration
  order of the hash set is unspecified in the source);
* wall-clock time is a `Nat` counter carried in the state; reading the
  clock does not advance it, the 1 microsecond sleep inside a migration
  advances it by 1, so a timed migration reports an elapsed time of 1
  (the source reports the measured wall time, which the sleep forces to
  be at least 1 microsecond);
* the byte contents of pages and the log output are not modelled.
-/

namespace UvmSim

/-- Per-VPN residency descriptor, `PageTableEntry` in `PageTable.h`. -/
structure PageTableEntry where
  resident_on_cpu : Bool
  resident_on_gpu : Bool
  is_dirty : Bool
  is_pinned : Bool
  is_valid : Bool
  cpu_address : Nat
  gpu_address : Nat
  access_timestamp_us : Nat
  access_count : Nat
  clock_hand : Nat
deriving Repr, DecidableEq

/-- Default-constructed `PageTableEntry` (all flags clear, null addresses). -/
def PageTableEntry.init : PageTableEntry :=
  ⟨false, false, false, false, false, 0, 0, 0, 0, 0⟩

/-- The page-table map `entries_` (an `std::unordered_map`), as an
association list from VPN to entry. -/
abbrev PT := List (Nat × PageTableEntry)

/-- `PageTable::lookup_entry`: find the live entry for `vpn`, if any
(the `entries_.find(vpn)` of the source, on the association list). -/
def lookup_entry : PT → Nat → Option PageTableEntry
  | [], _ => none
  | p :: t, vpn => if p.1 = vpn then some p.2 else lookup_entry t vpn

/-- Mutation through the entry pointer returned by `lookup_entry`:
apply `f` to the entry stored under key `vpn`. -/
def pt_update (pt : PT) (vpn : Nat) (f : PageTableEntry → PageTableEntry) : PT :=
  pt.map (fun p => if p.1 = vpn then (p.1, f p.2) else p)

/-- The loop body of `PageTable::allocate_vpn_range`: insert
default entries with `is_valid = true` one VPN at a time, stopping with
`false` at the first VPN that already has an entry (entries inserted
before the conflict stay in the map, as in the source). -/
def alloc_range (pt : PT) (vpn : Nat) : Nat → PT × Bool
  | 0 => (pt, true)
  | n + 1 =>
    if (lookup_entry pt vpn).isSome then (pt, false)
    else alloc_range (pt ++ [(vpn, { PageTableEntry.init with is_valid := true })]) (vpn + 1) n

/-- `PageTable::deallocate_vpn_range`: erase each VPN of the range. -/
def dealloc_range (pt : PT) (vpn : Nat) : Nat → PT
  | 0 => pt
  | n + 1 => dealloc_range (pt.filter (fun p => p.1 ≠ vpn)) (vpn + 1) n

/-- `PageTable::set_cpu_resident`. -/
def set_cpu_resident (pt : PT) (vpn : Nat) (cpu_addr : Nat) (now : Nat) : PT :=
  pt_update pt vpn (fun e =>
    { e with resident_on_cpu := true, cpu_address := cpu_addr, access_timestamp_us := now })

/-- `PageTable::set_gpu_resident`. -/
def set_gpu_resident (pt : PT) (vpn : Nat) (gpu_addr : Nat) (now : Nat) : PT :=
  pt_update pt vpn (fun e =>
    { e with resident_on_gpu := true, gpu_address := gpu_addr, access_timestamp_us := now })

/-- `PageTable::update_access_time`. -/
def update_access_time (pt : PT) (vpn : Nat) (now : Nat) : PT :=
  pt_update pt vpn (fun e =>
    { e with access_timestamp_us := now, access_count := e.access_count + 1 })

/-! ## PageAllocator (`PageAllocator.cpp`) -/

/-- Synthetic device address base, `0x100000000UL` in the source. -/
def gpuBase : Nat := 4294967296

/-- State of `PageAllocator`: the two occupancy bitmaps and counters,
plus the configuration fields the operations read (`page_size`,
`cpu_page_pool_size`) and the address of the malloc-ed host pool. -/
structure PageAllocator where
  page_size : Nat
  cpu_pool_size : Nat
  cpu_base : Nat
  cpu_page_bitmap : List Bool
  cpu_pages_allocated : Nat
  gpu_page_bitmap : List Bool
  gpu_pages_allocated : Nat
deriving Repr, DecidableEq

/-- Index of the first unoccupied slot of a bitmap (the linear scan in
`allocate_cpu_page` / `allocate_gpu_page`). -/
def findFreeIdx : List Bool → Option Nat
  | [] => none
  | b :: t => if b = false then some 0 else (findFreeIdx t).map (fun i => i + 1)

/-- `PageAllocator::allocate_cpu_page`; returns the new state and the
slot address (0 = nullptr on exhaustion). -/
def allocate_cpu_page (a : PageAllocator) : PageAllocator × Nat :=
  match findFreeIdx a.cpu_page_bitmap with
  | some i =>
    ({ a with cpu_page_bitmap := a.cpu_page_bitmap.set i true,
              cpu_pages_allocated := a.cpu_pages_allocated + 1 },
     a.cpu_base + i * a.page_size)
  | none => (a, 0)

/-- The final step of `deallocate_cpu_page`: clear the occupancy bit of
slot `i` if it is in range and currently set; otherwise do nothing. -/
def clearCpuSlot (a : PageAllocator) (i : Nat) : PageAllocator :=
  if i < a.cpu_page_bitmap.length ∧ a.cpu_page_bitmap.getD i false = true then
    { a with cpu_page_bitmap := a.cpu_page_bitmap.set i false,
             cpu_pages_allocated := a.cpu_pages_allocated - 1 }
  else a

/-- `PageAllocator::deallocate_cpu_page`: recompute the slot index from
the pointer; out-of-pool pointers and already-free slots are ignored. -/
def deallocate_cpu_page (a : PageAllocator) (p : Nat) : PageAllocator :=
  if p = 0 then a
  else if p < a.cpu_base then a
  else
    let off := p - a.cpu_base
    if a.cpu_pool_size ≤ off then a
    else clearCpuSlot a (off / a.page_size)

/-- `PageAllocator::allocate_gpu_page`; returns the new state and the
synthetic device address (0 on exhaustion). -/
def allocate_gpu_page (a : PageAllocator) : PageAllocator × Nat :=
  match findFreeIdx a.gpu_page_bitmap with
  | some i =>
    ({ a with gpu_page_bitmap := a.gpu_page_bitmap.set i true,
              gpu_pages_allocated := a.gpu_pages_allocated + 1 },
     gpuBase + i * a.page_size)
  | none => (a, 0)

/-- `PageAllocator::deallocate_gpu_page`. -/
def deallocate_gpu_page (a : PageAllocator) (addr : Nat) : PageAllocator :=
  if addr < gpuBase then a
  else
    let i := (addr - gpuBase) / a.page_size
    if i < a.gpu_page_bitmap.length ∧ a.gpu_page_bitmap.getD i false = true then
      { a with gpu_page_bitmap := a.gpu_page_bitmap.set i false,
               gpu_pages_allocated := a.gpu_pages_allocated - 1 }
    else a

/-! ## Replacement policies (`Policies.cpp`) -/

/-- List-membership-preserving insert for `std::unordered_set` style
containers (no duplicates; position of a fresh element is the model's
choice, matching the unspecified iteration order of the hash set). -/
def setInsert (l : List Nat) (v : Nat) : List Nat :=
  if v ∈ l then l else v :: l

/-- The tagged sum of the two policy variants. `lru` carries
`lru_queue_` (head = front) and `active_pages_`; `clock` carries
`clock_hand_vec_` (entries are VPN paired with the reference bit) and
`hand_pos_`. -/
inductive Policy where
  | lru (q : List Nat) (active : List Nat) (maxPages : Nat)
  | clock (vec : List (Nat × Bool)) (hand : Nat) (maxPages : Nat)
deriving Repr, DecidableEq

/-- The trimming loop in `LRUPolicy::on_page_allocated`: while the queue
exceeds `maxPages`, pop the front and drop it from the active set. -/
def lruTrim (maxPages : Nat) : List Nat → List Nat → List Nat × List Nat
  | [], active => ([], active)
  | h :: t, active =>
    if maxPages < (h :: t).length then lruTrim maxPages t (active.erase h)
    else (h :: t, active)

/-- The trimming loop in `CLOCKPolicy::on_page_allocated`: while the
vector exceeds `maxPages`, wrap the hand if needed, erase at the hand,
and re-wrap. -/
def clockTrim (maxPages : Nat) : List (Nat × Bool) → Nat → List (Nat × Bool) × Nat
  | [], hand => ([], hand)
  | e :: t, hand =>
    if maxPages < (e :: t).length then
      let h1 := if (e :: t).length ≤ hand then 0 else hand
      let vec2 := (e :: t).eraseIdx h1
      let h2 := if vec2.length ≤ h1 ∧ vec2 ≠ [] then 0 else h1
      clockTrim maxPages vec2 h2
    else (e :: t, hand)
termination_by vec _ => vec.length
decreasing_by
  simp only [List.length_eraseIdx]
  split <;> split <;> omega

/-- The scan in `CLOCKPolicy::on_page_access`: set the reference bit of
the first entry with the given VPN and stop. -/
def clockSetBit (vpn : Nat) : List (Nat × Bool) → List (Nat × Bool)
  | [] => []
  | e :: t => if e.1 = vpn then (e.1, true) :: t else e :: clockSetBit vpn t

/-- `on_page_access` for both variants. The LRU variant locates the VPN
in the queue and then performs no mutation (the move-to-tail is absent
in the source), so the state is returned unchanged; the CLOCK variant
sets the reference bit of the first matching entry. -/
def on_page_access (pol : Policy) (vpn : Nat) : Policy :=
  match pol with
  | .lru q active maxPages => .lru q active maxPages
  | .clock vec hand maxPages => .clock (clockSetBit vpn vec) hand maxPages

/-- `on_page_allocated` for both variants. A fresh CLOCK entry has its
reference bit set (the `ClockEntry` constructor). -/
def on_page_allocated (pol : Policy) (vpn : Nat) : Policy :=
  match pol with
  | .lru q active maxPages =>
    let q1 := q ++ [vpn]
    let active1 := setInsert active vpn
    let (q2, active2) := lruTrim maxPages q1 active1
    .lru q2 active2 maxPages
  | .clock vec hand maxPages =>
    let (vec2, hand2) := clockTrim maxPages (vec ++ [(vpn, true)]) hand
    .clock vec2 hand2 maxPages

/-- Index of the first entry with the given VPN in a CLOCK vector. -/
def clockFindIdx (vec : List (Nat × Bool)) (vpn : Nat) : Option Nat :=
  vec.findIdx? (fun e => e.1 = vpn)

/-- `on_page_freed` for both variants: LRU erases only the active set
(the queue is untouched in the source); CLOCK erases the entry and
re-wraps the hand. -/
def on_page_freed (pol : Policy) (vpn : Nat) : Policy :=
  match pol with
  | .lru q active maxPages => .lru q (active.erase vpn) maxPages
  | .clock vec hand maxPages =>
    match clockFindIdx vec vpn with
    | none => .clock vec hand maxPages
    | some i =>
      let vec2 := vec.eraseIdx i
      let hand2 := if vec2.length ≤ hand ∧ vec2 ≠ [] then 0 else hand
      .clock vec2 hand2 maxPages

/-- The scan loop of `CLOCKPolicy::select_victim`, with explicit fuel
(the source loop runs until it returns; `2 * size + 2` iterations always
suffice). A zero reference bit returns that entry's VPN, advances the
hand modulo the pre-erase size and erases at the *advanced* hand; a set
bit is cleared and skipped. When the loop is entered with the hand
already past the end (`hand_pos_ < size` false), the fallback block runs:
it reads `clock_hand_vec_[hand_pos_]`, an out-of-bounds access in the
source, modelled by `getD` with the default entry. -/
def clockSelectLoop : Nat → List (Nat × Bool) → Nat → Nat × List (Nat × Bool) × Nat
  | 0, vec, hand => (0, vec, hand)
  | fuel + 1, vec, hand =>
    if hand < vec.length then
      let e := vec.getD hand (0, false)
      if e.2 = false then
        let hand2 := (hand + 1) % vec.length
        (e.1, vec.eraseIdx hand2, hand2)
      else
        clockSelectLoop fuel (vec.set hand (e.1, false)) ((hand + 1) % vec.length)
    else
      if vec = [] then (0, vec, hand)
      else
        let e := vec.getD hand (0, false)
        let hand2 := (hand + 1) % vec.length
        (e.1, vec.eraseIdx hand2, hand2)

/-- `select_victim` for both variants; returns the victim VPN (0 when
there is no candidate) and the policy state after selection. LRU pops
the queue front and erases it from the active set. -/
def select_victim (pol : Policy) : Nat × Policy :=
  match pol with
  | .lru q active maxPages =>
    match q with
    | [] => (0, .lru [] active maxPages)
    | h :: t => (h, .lru t (active.erase h) maxPages)
  | .clock vec hand maxPages =>
    if vec = [] then (0, .clock vec hand maxPages)
    else
      let (v, vec2, hand2) := clockSelectLoop (2 * vec.length + 2) vec hand
      (v, .clock vec2 hand2 maxPages)

/-! ## TLB (`TLB.cpp`) -/

/-- Cached translation, `TLBEntry` in `TLB.h`. -/
structure TLBEntry where
  vpn : Nat
  cpu_address : Nat
  gpu_address : Nat
  timestamp : Nat
  valid : Bool
deriving Repr, DecidableEq

/-- The byte-wise FNV-1a-style mixing function `hash_vpn` of `Common.h`,
computed over the 8 bytes of the VPN in 32-bit arithmetic. -/
def hash_vpn (vpn : Nat) : Nat :=
  (List.range 8).foldl
    (fun h i => ((h ^^^ ((vpn >>> (i * 8)) % 256)) * 16777619) % 4294967296)
    2166136261

/-- State of the set-associative TLB: the configuration and the sets.
The façade only ever calls `invalidate` on it, so the hit and miss
counters and the untouched `lookup` / `insert` operations are carried
but not exercised by the façade model. -/
structure TLB where
  tlb_size : Nat
  associativity : Nat
  sets : List (List TLBEntry)
  hits : Nat
  misses : Nat
deriving Repr, DecidableEq

/-- `TLB::get_set_index`. -/
def tlb_set_index (t : TLB) (vpn : Nat) : Nat :=
  hash_vpn vpn % (t.tlb_size / t.associativity)

/-- The erase scan of `TLB::invalidate`: drop the first entry with the
given VPN, keeping the rest. -/
def tlbRemoveFirst (vpn : Nat) : List TLBEntry → List TLBEntry
  | [] => []
  | e :: rest => if e.vpn = vpn then rest else e :: tlbRemoveFirst vpn rest

/-- `TLB::invalidate`: remove the first entry with the given VPN from
its set, if present. -/
def tlb_invalidate (t : TLB) (vpn : Nat) : TLB :=
  let idx := tlb_set_index t vpn
  { t with sets := t.sets.set idx (tlbRemoveFirst vpn (t.sets.getD idx [])) }

/-! ## MigrationManager (`MigrationManager.cpp`), synchronous paths -/

/-- `MigrationManager::migrate_cpu_to_gpu` over the page table and the
clock; returns the updated table, the clock, and the elapsed time.
A null host pointer or a missing page-table entry aborts with 0 before
the delay; otherwise the entry is marked device-resident at `gpu_addr`
with the dirty bit cleared, and the measured elapsed time (1 in the
model, the sleep duration) is returned. -/
def migrate_cpu_to_gpu (pt : PT) (now : Nat) (vpn cpu_addr gpu_addr : Nat) :
    PT × Nat × Nat :=
  if cpu_addr = 0 then (pt, now, 0)
  else if (lookup_entry pt vpn).isSome = false then (pt, now, 0)
  else
    let now2 := now + 1
    let pt2 := pt_update pt vpn (fun e =>
      { e with resident_on_gpu := true, gpu_address := gpu_addr, is_dirty := false })
    (pt2, now2, now2 - now)

/-- `MigrationManager::migrate_gpu_to_cpu`: aborts with 0 only on a null
host pointer or a zero device address. There is no page-table validity
check: with a live entry it is marked host-resident at `cpu_addr`; with
no entry nothing is mutated — but the delay still runs and the measured
elapsed time is returned either way. -/
def migrate_gpu_to_cpu (pt : PT) (now : Nat) (vpn gpu_addr cpu_addr : Nat) :
    PT × Nat × Nat :=
  if cpu_addr = 0 then (pt, now, 0)
  else if gpu_addr = 0 then (pt, now, 0)
  else
    let pt2 :=
      if (lookup_entry pt vpn).isSome then
        pt_update pt vpn (fun e =>
          { e with resident_on_cpu := true, cpu_address := cpu_addr })
      else pt
    let now2 := now + 1
    (pt2, now2, now2 - now)

/-! ## VirtualMemoryManager façade (`VirtualMemoryManager.cpp`) -/

/-- The performance counter block of `Common.h`. -/
structure PerfCounters where
  total_page_faults : Nat
  cpu_to_gpu_migrations : Nat
  gpu_to_cpu_migrations : Nat
  total_bytes_migrated : Nat
  total_migration_time_us : Nat
  tlb_hits : Nat
  tlb_misses : Nat
  evictions : Nat
  kernel_launches : Nat
  page_prefetches : Nat
deriving Repr, DecidableEq

/-- The three counter increments that accompany every host→device
migration in the façade. -/
def chargeC2G (c : PerfCounters) (pageSize t : Nat) : PerfCounters :=
  { c with cpu_to_gpu_migrations := c.cpu_to_gpu_migrations + 1,
           total_bytes_migrated := c.total_bytes_migrated + pageSize,
           total_migration_time_us := c.total_migration_time_us + t }

/-- The three counter increments that accompany every device→host
migration in the façade. -/
def chargeG2C (c : PerfCounters) (pageSize t : Nat) : PerfCounters :=
  { c with gpu_to_cpu_migrations := c.gpu_to_cpu_migrations + 1,
           total_bytes_migrated := c.total_bytes_migrated + pageSize,
           total_migration_time_us := c.total_migration_time_us + t }

/-- State owned by the `VirtualMemoryManager` singleton after a
successful set-up: the five subsystems plus the VPN counter, the
base-address map `vaddr_to_vpn_map_`, the device residency ledger
`gpu_resident_pages_` (a hash set, modelled as a duplicate-free list
whose head is `begin()`), the configured page size and the clock. -/
structure VMState where
  page_table : PT
  alloc : PageAllocator
  tlb : TLB
  policy : Policy
  counters : PerfCounters
  next_vpn : Nat
  vaddr_map : List (Nat × Nat)
  ledger : List Nat
  page_size : Nat
  now : Nat
deriving Repr, DecidableEq

/-- Write `vaddr_to_vpn_map_[k] = v` on the association list. -/
def mapInsert (m : List (Nat × Nat)) (k v : Nat) : List (Nat × Nat) :=
  if (m.find? (fun p => p.1 = k)).isSome then
    m.map (fun p => if p.1 = k then (k, v) else p)
  else m ++ [(k, v)]

/-- `align_to_page` from `Common.h`. -/
def align_to_page (sz pageSize : Nat) : Nat :=
  ((sz + pageSize - 1) / pageSize) * pageSize

/-- `VirtualMemoryManager::evict_page_from_gpu`. Empty ledger: return.
Ask the policy for a victim; a zero answer is replaced by `begin()` of
the (non-empty) ledger; if the victim is still 0, return. Then, through
the victim's entry: a dirty host-resident page is migrated back first
(counted), the device slot is deallocated, the device residency flag and
address are cleared, the ledger, eviction counter and TLB are updated. -/
def evict_page_from_gpu (s : VMState) : VMState :=
  match s.ledger with
  | [] => s
  | h :: _ =>
    let (v0, pol1) := select_victim s.policy
    let victim := if v0 = 0 then h else v0
    let s1 := { s with policy := pol1 }
    if victim = 0 then s1
    else
      match lookup_entry s1.page_table victim with
      | none => s1
      | some e =>
        let s2 :=
          if e.is_dirty ∧ e.resident_on_cpu then
            let r := migrate_gpu_to_cpu s1.page_table s1.now victim e.gpu_address e.cpu_address
            { s1 with page_table := r.1, now := r.2.1,
                      counters := chargeG2C s1.counters s1.page_size r.2.2 }
          else s1
        let gaddr :=
          match lookup_entry s2.page_table victim with
          | some e2 => e2.gpu_address
          | none => e.gpu_address
        { s2 with alloc := deallocate_gpu_page s2.alloc gaddr,
                  page_table := pt_update s2.page_table victim (fun e2 =>
                    { e2 with gpu_address := 0, resident_on_gpu := false }),
                  ledger := s2.ledger.erase victim,
                  counters := { s2.counters with evictions := s2.counters.evictions + 1 },
                  tlb := tlb_invalidate s2.tlb victim }

/-- Tail of the device-target fault body shared verbatim by
`map_to_gpu` and the `access_gpu` branch of `resolve_page_fault` (the
source duplicates this code): after the slot request, a host-resident
source is migrated (counted), the device residency flag is set and the
VPN enters the ledger. -/
def device_fault_finish (s1 : VMState) (vpn : Nat) : VMState :=
  match lookup_entry s1.page_table vpn with
  | none => s1
  | some e1 =>
    let s2 :=
      if e1.resident_on_cpu then
        let r := migrate_cpu_to_gpu s1.page_table s1.now vpn e1.cpu_address e1.gpu_address
        { s1 with page_table := r.1, now := r.2.1,
                  counters := chargeC2G s1.counters s1.page_size r.2.2 }
      else s1
    { s2 with page_table := pt_update s2.page_table vpn (fun e =>
                { e with resident_on_gpu := true }),
              ledger := setInsert s2.ledger vpn }

/-- Continuation of the device-target fault body: the slot-request part
(one eviction attempt and an unconditional retry-store), followed by
`device_fault_finish`. -/
def device_fault_body (s : VMState) (vpn : Nat) (e0 : PageTableEntry) : VMState :=
  let s1 :=
    if e0.gpu_address = 0 then
      let r1 := allocate_gpu_page s.alloc
      let sA := { s with alloc := r1.1,
                         page_table := pt_update s.page_table vpn (fun e =>
                           { e with gpu_address := r1.2 }) }
      if r1.2 = 0 then
        let sB := evict_page_from_gpu sA
        let r2 := allocate_gpu_page sB.alloc
        { sB with alloc := r2.1,
                  page_table := pt_update sB.page_table vpn (fun e =>
                    { e with gpu_address := r2.2 }) }
      else sA
    else s
  device_fault_finish s1 vpn

/-- Tail of the host-target fault body of `resolve_page_fault`: a
device-resident source is migrated back (counted), then the host
residency flag is set. -/
def host_fault_finish (s1 : VMState) (vpn : Nat) : VMState :=
  match lookup_entry s1.page_table vpn with
  | none => s1
  | some e1 =>
    let s2 :=
      if e1.resident_on_gpu then
        let r := migrate_gpu_to_cpu s1.page_table s1.now vpn e1.gpu_address e1.cpu_address
        { s1 with page_table := r.1, now := r.2.1,
                  counters := chargeG2C s1.counters s1.page_size r.2.2 }
      else s1
    { s2 with page_table := pt_update s2.page_table vpn (fun e =>
                { e with resident_on_cpu := true }) }

/-- The host-target fault body of `resolve_page_fault`: request a host
slot when missing (no eviction, no retry; a null answer is stored
as-is), then `host_fault_finish`. -/
def host_fault_body (s : VMState) (vpn : Nat) (e0 : PageTableEntry) : VMState :=
  let s1 :=
    if e0.cpu_address = 0 then
      let r1 := allocate_cpu_page s.alloc
      { s with alloc := r1.1,
               page_table := pt_update s.page_table vpn (fun e =>
                 { e with cpu_address := r1.2 }) }
    else s
  host_fault_finish s1 vpn

/-- `VirtualMemoryManager::resolve_page_fault`. An unknown VPN logs an
error and returns with no mutation. -/
def resolve_page_fault (s : VMState) (vpn : Nat) (access_gpu : Bool) : VMState :=
  match lookup_entry s.page_table vpn with
  | none => s
  | some e0 =>
    if access_gpu then
      if e0.resident_on_gpu then s else device_fault_body s vpn e0
    else
      if e0.resident_on_cpu then s else host_fault_body s vpn e0

/-- Result of the host-slot loop of `allocate`: the allocator, page
table and policy threaded through the iterations, plus the host pages
taken so far (`cpu_pages`, in allocation order). -/
inductive HostLoop where
  | ok (a : PageAllocator) (pt : PT) (pol : Policy) (pages : List Nat)
  | fail (a : PageAllocator) (pt : PT) (pol : Policy) (pages : List Nat)
deriving Repr, DecidableEq

/-- The per-VPN host-slot loop of `allocate`: take one host slot per
VPN; on a null slot stop with `fail` (the façade then rolls back);
otherwise mark the VPN host-resident, bump its access metadata and
register it with the replacement policy. -/
def host_alloc_loop (now : Nat) : Nat → Nat → PageAllocator → PT → Policy → HostLoop
  | _, 0, a, pt, pol => .ok a pt pol []
  | vpn, n + 1, a, pt, pol =>
    let  r := allocate_cpu_page a
    if r.2 = 0 then .fail r.1 pt pol []
    else
      let pt1 := update_access_time (set_cpu_resident pt vpn r.2 now) vpn now
      let pol1 := on_page_allocated pol vpn
      match host_alloc_loop now (vpn + 1) n r.1 pt1 pol1 with
      | .ok a2 pt2 pol2 ps => .ok a2 pt2 pol2 (r.2 :: ps)
      | .fail a2 pt2 pol2 ps => .fail a2 pt2 pol2 (r.2 :: ps)

/-- The prefetch loop of `allocate(bytes, prefetch_to_gpu = true)`:
for page `i`, request a device slot; a zero answer is logged and the
page stays host-only (`continue`); otherwise mark device residency,
enter the ledger, run the synchronous migration from `cpu_pages[i]`
and charge the migration and prefetch counters. -/
def prefetch_loop (pages : List Nat) (vpn_start : Nat) : Nat → Nat → VMState → VMState
  | _, 0, s => s
  | i, n + 1, s =>
    let r1 := allocate_gpu_page s.alloc
    let s1 := { s with alloc := r1.1 }
    if r1.2 = 0 then prefetch_loop pages vpn_start (i + 1) n s1
    else
      let vpn := vpn_start + i
      let s2 := { s1 with page_table := set_gpu_resident s1.page_table vpn r1.2 s1.now,
                          ledger := setInsert s1.ledger vpn }
      let r := migrate_cpu_to_gpu s2.page_table s2.now vpn (pages.getD i 0) r1.2
      let s3 := { s2 with page_table := r.1, now := r.2.1,
                          counters := chargeC2G s2.counters s2.page_size r.2.2 }
      let s4 := { s3 with counters :=
                    { s3.counters with page_prefetches := s3.counters.page_prefetches + 1 } }
      prefetch_loop pages vpn_start (i + 1) n s4

/-- `VirtualMemoryManager::allocate`; returns the state and the virtual
address (0 = nullptr on failure). Round the size up, reserve a
contiguous VPN range at `next_vpn_` (on failure return null; entries a
conflicting reservation already inserted stay, as in the source), run
the host-slot loop (on failure deallocate the slots taken and the VPN
range, return null), optionally prefetch, record the base address and
advance the VPN counter. -/
def vmm_allocate (s : VMState) (bytes : Nat) (prefetch_to_gpu : Bool) : VMState × Nat :=
  let aligned := align_to_page bytes s.page_size
  let num_pages := aligned / s.page_size
  let vpn_start := s.next_vpn
  let rr := alloc_range s.page_table vpn_start num_pages
  if rr.2 = false then ({ s with page_table := rr.1 }, 0)
  else
    match host_alloc_loop s.now vpn_start num_pages s.alloc rr.1 s.policy with
    | .fail a1 pt2 pol1 ps =>
      let a2 := ps.foldl deallocate_cpu_page a1
      ({ s with alloc := a2, page_table := dealloc_range pt2 vpn_start num_pages,
                policy := pol1 }, 0)
    | .ok a1 pt2 pol1 pages =>
      let sMid := { s with alloc := a1, page_table := pt2, policy := pol1 }
      let s2 := if prefetch_to_gpu then prefetch_loop pages vpn_start 0 num_pages sMid else sMid
      let vaddr := vpn_start * s.page_size
      ({ s2 with vaddr_map := mapInsert s2.vaddr_map vaddr vpn_start,
                 next_vpn := s2.next_vpn + num_pages }, vaddr)

/-- The per-VPN body of the loop in `free`: deallocate the host and
device slots if the entry holds them, then unconditionally drop the VPN
from the ledger, notify the policy and invalidate the TLB. -/
def free_loop (start : Nat) : Nat → Nat → VMState → VMState
  | _, 0, s => s
  | i, n + 1, s =>
    let vpn := start + i
    let e? := lookup_entry s.page_table vpn
    let a1 :=
      match e? with
      | some e => if e.cpu_address ≠ 0 then deallocate_cpu_page s.alloc e.cpu_address else s.alloc
      | none => s.alloc
    let a2 :=
      match e? with
      | some e => if e.gpu_address ≠ 0 then deallocate_gpu_page a1 e.gpu_address else a1
      | none => a1
    let s1 := { s with alloc := a2,
                       ledger := s.ledger.erase vpn,
                       policy := on_page_freed s.policy vpn,
                       tlb := tlb_invalidate s.tlb vpn }
    free_loop start (i + 1) n s1

/-- `VirtualMemoryManager::free`. An unmapped base address warns and
returns. Otherwise the page count is *recomputed* as the number of valid
page-table entries whose VPN is ≥ the allocation's first VPN (0 is
patched to 1), that many consecutive VPNs are released, and the VPN
range and base-address mapping are dropped. -/
def vmm_free (s : VMState) (vaddr : Nat) : VMState :=
  match s.vaddr_map.find? (fun p => p.1 = vaddr) with
  | none => s
  | some pr =>
    let vpn_start := pr.2
    let cnt := s.page_table.countP (fun p => decide (vpn_start ≤ p.1) && p.2.is_valid)
    let num_pages := if cnt = 0 then 1 else cnt
    let s1 := free_loop vpn_start 0 num_pages s
    { s1 with page_table := dealloc_range s1.page_table vpn_start num_pages,
              vaddr_map := s1.vaddr_map.filter (fun p => p.1 ≠ vaddr) }

/-- `VirtualMemoryManager::map_to_cpu`. -/
def vmm_map_to_cpu (s : VMState) (vaddr : Nat) : VMState :=
  let vpn := vaddr / s.page_size
  match lookup_entry s.page_table vpn with
  | none => s
  | some e0 =>
    if e0.resident_on_cpu = false then resolve_page_fault s vpn false else s

/-- `VirtualMemoryManager::map_to_gpu`; its body inlines the same code
as the device branch of `resolve_page_fault`. -/
def vmm_map_to_gpu (s : VMState) (vaddr : Nat) : VMState :=
  let vpn := vaddr / s.page_size
  match lookup_entry s.page_table vpn with
  | none => s
  | some e0 =>
    if e0.resident_on_gpu then s else device_fault_body s vpn e0

/-- `VirtualMemoryManager::prefetch_to_gpu` simply calls `map_to_gpu`. -/
def vmm_prefetch_to_gpu (s : VMState) (vaddr : Nat) : VMState :=
  vmm_map_to_gpu s vaddr

/-- `VirtualMemoryManager::touch_page`. A lookup miss counts a page
fault and resolves towards the host, then re-looks up (the resolution
of an unknown VPN mutates nothing, so the re-lookup misses again). With
a live entry the access metadata is bumped, a write sets dirty, and the
policy is told about the access. -/
def vmm_touch_page (s : VMState) (vaddr : Nat) (is_write : Bool) : VMState :=
  let vpn := vaddr / s.page_size
  let st :=
    match lookup_entry s.page_table vpn with
    | none =>
      let sF := { s with counters :=
        { s.counters with total_page_faults := s.counters.total_page_faults + 1 } }
      let sR := resolve_page_fault sF vpn false
      (sR, lookup_entry sR.page_table vpn)
    | some e0 => (s, some e0)
  match st.2 with
  | none => st.1
  | some _ =>
    { st.1 with
      page_table := pt_update st.1.page_table vpn (fun e =>
        { e with access_timestamp_us := st.1.now,
                 access_count := e.access_count + 1,
                 is_dirty := if is_write then true else e.is_dirty }),
      policy := on_page_access st.1.policy vpn }

/-- `VirtualMemoryManager::read_from_vaddr` (the byte copy itself is not
modelled; `buf` is the caller's buffer pointer). -/
def vmm_read (s : VMState) (vaddr buf : Nat) : VMState :=
  if vaddr = 0 ∨ buf = 0 then s
  else
    let vpn := vaddr / s.page_size
    match lookup_entry s.page_table vpn with
    | none => s
    | some e0 =>
      let st :=
        if e0.resident_on_cpu = false then
          let sR := resolve_page_fault s vpn false
          (sR, lookup_entry sR.page_table vpn)
        else (s, some e0)
      match st.2 with
      | none => st.1
      | some e1 =>
        if e1.cpu_address ≠ 0 then
          { st.1 with page_table := pt_update st.1.page_table vpn (fun e =>
              { e with access_timestamp_us := st.1.now }) }
        else st.1

/-- `VirtualMemoryManager::write_to_vaddr` (byte copy not modelled). -/
def vmm_write (s : VMState) (vaddr buf : Nat) : VMState :=
  if vaddr = 0 ∨ buf = 0 then s
  else
    let vpn := vaddr / s.page_size
    match lookup_entry s.page_table vpn with
    | none => s
    | some e0 =>
      let st :=
        if e0.resident_on_cpu = false then
          let sR := resolve_page_fault s vpn false
          (sR, lookup_entry sR.page_table vpn)
        else (s, some e0)
      match st.2 with
      | none => st.1
      | some e1 =>
        if e1.cpu_address ≠ 0 then
          { st.1 with page_table := pt_update st.1.page_table vpn (fun e =>
              { e with is_dirty := true, access_timestamp_us := st.1.now }) }
        else st.1

/-- One public façade call, with its arguments. -/
inductive VMOp where
  | alloc (bytes : Nat) (prefetch_to_gpu : Bool)
  | free (vaddr : Nat)
  | mapToCpu (vaddr : Nat)
  | mapToGpu (vaddr : Nat)
  | prefetchToGpu (vaddr : Nat)
  | touch (vaddr : Nat) (is_write : Bool)
  | read (vaddr buf : Nat)
  | write (vaddr buf : Nat)
deriving Repr, DecidableEq

/-- Dispatch one façade call. -/
def vmm_step (s : VMState) : VMOp → VMState
  | .alloc bytes pre => (vmm_allocate s bytes pre).1
  | .free vaddr => vmm_free s vaddr
  | .mapToCpu vaddr => vmm_map_to_cpu s vaddr
  | .mapToGpu vaddr => vmm_map_to_gpu s vaddr
  | .prefetchToGpu vaddr => vmm_prefetch_to_gpu s vaddr
  | .touch vaddr w => vmm_touch_page s vaddr w
  | .read vaddr buf => vmm_read s vaddr buf
  | .write vaddr buf => vmm_write s vaddr buf

/-- Run a sequence of façade calls. -/
def vmm_run (s : VMState) (ops : List VMOp) : VMState :=
  ops.foldl vmm_step s

/-- Whether a façade call is `free`. -/
def VMOp.isFree : VMOp → Bool
  | .free _ => true
  | _ => false

/-! ## Concrete fixture states used by the per-claim theorems -/

/-- A small 4-set TLB with empty sets. -/
def tlbSmall : TLB :=
  { tlb_size := 8, associativity := 2, sets := [[], [], [], []], hits := 0, misses := 0 }

/-- All counters zero. -/
def zeroCounters : PerfCounters := ⟨0, 0, 0, 0, 0, 0, 0, 0, 0, 0⟩

/-- A live host-resident entry in host slot 0 (address 1 = pool base). -/
def hostEntry : PageTableEntry :=
  { PageTableEntry.init with is_valid := true, resident_on_cpu := true, cpu_address := 1 }

/-- A live host-resident entry in host slot 1 (address 17). -/
def hostEntryB : PageTableEntry :=
  { PageTableEntry.init with is_valid := true, resident_on_cpu := true, cpu_address := 17 }

/-- An allocator with page size 16, a 2-slot host pool at base address 1
(slot 0 in use) and a device pool with zero slots. -/
def allocOneUsed : PageAllocator :=
  { page_size := 16, cpu_pool_size := 32, cpu_base := 1,
    cpu_page_bitmap := [true, false], cpu_pages_allocated := 1,
    gpu_page_bitmap := [], gpu_pages_allocated := 0 }

/-- Façade state with one host-resident page (VPN 0) and a device pool
holding zero slots: any device-slot request returns 0 and the residency
ledger is empty, so the eviction attempt inside fault resolution is a
no-op and the retry fails too. This is the state `map_to_gpu` reaches
when the configured device memory is smaller than one page. -/
def stateDeviceExhausted : VMState :=
  { page_table := [(0, hostEntry)], alloc := allocOneUsed, tlb := tlbSmall,
    policy := .lru [0] [0] 65536, counters := zeroCounters, next_vpn := 1,
    vaddr_map := [(0, 0)], ledger := [], page_size := 16, now := 0 }

/-- Façade state with no pages at all. -/
def stateEmpty : VMState :=
  { page_table := [], alloc := allocOneUsed, tlb := tlbSmall,
    policy := .lru [] [] 65536, counters := zeroCounters, next_vpn := 0,
    vaddr_map := [], ledger := [], page_size := 16, now := 0 }

/-- Two live single-page allocations: A at base 0 (VPN 0, host slot 0)
and B at base 16 (VPN 1, host slot 1). Both host slots in use. -/
def stateTwoAllocs : VMState :=
  { page_table := [(0, hostEntry), (1, hostEntryB)],
    alloc := { page_size := 16, cpu_pool_size := 32, cpu_base := 1,
               cpu_page_bitmap := [true, true], cpu_pages_allocated := 2,
               gpu_page_bitmap := [false], gpu_pages_allocated := 0 },
    tlb := tlbSmall, policy := .lru [0, 1] [0, 1] 65536, counters := zeroCounters,
    next_vpn := 2, vaddr_map := [(0, 0), (16, 1)], ledger := [],
    page_size := 16, now := 0 }

/-- A live entry resident in both domains (device slot 0). -/
def bothEntry : PageTableEntry :=
  { PageTableEntry.init with
      is_valid := true, resident_on_cpu := true, cpu_address := 1,
      resident_on_gpu := true, gpu_address := 4294967296 }

/-- State where VPN 0 is device-resident, the LRU queue front is 0 and
the ledger is exactly the singleton 0 (so its `begin()` is 0). -/
def stateLedgerZero : VMState :=
  { page_table := [(0, bothEntry)],
    alloc := { allocOneUsed with gpu_page_bitmap := [true], gpu_pages_allocated := 1 },
    tlb := tlbSmall, policy := .lru [0] [0] 65536, counters := zeroCounters,
    next_vpn := 1, vaddr_map := [(0, 0)], ledger := [0], page_size := 16, now := 0 }

/-- State where VPN 5 is device-resident (the ledger is the singleton 5)
while the LRU queue front is the ordinary VPN 0. -/
def stateLedgerFive : VMState :=
  { page_table := [(5, bothEntry)],
    alloc := { allocOneUsed with gpu_page_bitmap := [true], gpu_pages_allocated := 1 },
    tlb := tlbSmall, policy := .lru [0] [0] 65536, counters := zeroCounters,
    next_vpn := 6, vaddr_map := [(80, 5)], ledger := [5], page_size := 16, now := 0 }

/-- The entries `allocate_vpn_range` appends for a conflict-free range
(used to state the shape of a successful reservation). -/
def range_entries (v : Nat) : Nat → PT
  | 0 => []
  | n + 1 => (v, { PageTableEntry.init with is_valid := true }) :: range_entries (v + 1) n

/-- C8's invariant: the byte counter always equals the page size times
the total number of counted migrations. -/
def bytesInv (s : VMState) : Prop :=
  s.counters.total_bytes_migrated =
    s.page_size * (s.counters.cpu_to_gpu_migrations + s.counters.gpu_to_cpu_migrations)

/-- C10's transfer relation on page tables: any host-resident entry
keeps a host-resident entry with the same host address at its VPN. -/
def hostKeepPT (pt pt2 : PT) (vpn : Nat) : Prop :=
  ∀ e, lookup_entry pt vpn = some e → e.resident_on_cpu = true →
    ∃ e2, lookup_entry pt2 vpn = some e2 ∧ e2.resident_on_cpu = true ∧
      e2.cpu_address = e.cpu_address

/-! ## Basic lemmas about the page-table association list -/

/-- Effect of a pointer write on a later lookup. -/
theorem lookup_entry_pt_update (pt : PT) (k : Nat) (f : PageTableEntry → PageTableEntry)
    (v : Nat) :
    lookup_entry (pt_update pt k f) v =
      if v = k then (lookup_entry pt v).map f else lookup_entry pt v := by
  induction pt with
  | nil => simp [lookup_entry, pt_update]
  | cons p t ih =>
    simp only [pt_update] at ih
    by_cases hpk : p.1 = k <;> by_cases hvk : v = k
    · have hpv : p.1 = v := hpk.trans hvk.symm
      simp [pt_update, lookup_entry, hpk, hvk, hpv]
    · have hkv : ¬ k = v := fun h => hvk h.symm
      have hpv : ¬ p.1 = v := fun h => hvk (h.symm.trans hpk)
      simp [pt_update, lookup_entry, hpk, hvk, hpv, hkv, ih]
    · have hpv : ¬ p.1 = v := fun h => hpk (h.trans hvk)
      rw [hvk] at ih
      simp only [if_pos rfl] at ih
      simp [pt_update, lookup_entry, hpk, hvk, hpv, ih]
    · by_cases hpv : p.1 = v
      · simp [pt_update, lookup_entry, hpk, hvk, hpv]
      · simp [pt_update, lookup_entry, hpk, hvk, hpv, ih]

/-- Fault resolution of a VPN without a live entry mutates nothing. -/
theorem resolve_page_fault_none (s : VMState) (vpn : Nat) (g : Bool)
    (h : lookup_entry s.page_table vpn = none) :
    resolve_page_fault s vpn g = s := by
  simp only [resolve_page_fault, h]

/-- Pointer writes keep an entry present (and absent VPNs absent). -/
theorem lookup_isSome_pt_update (pt : PT) (k : Nat) (f : PageTableEntry → PageTableEntry)
    (v : Nat) :
    (lookup_entry (pt_update pt k f) v).isSome = (lookup_entry pt v).isSome := by
  rw [lookup_entry_pt_update]
  split
  · cases lookup_entry pt v <;> rfl
  · rfl

/-- A device→host migration keeps every page-table key present. -/
theorem lookup_isSome_migrate_g2c (pt : PT) (now vpn ga ca v : Nat) :
    (lookup_entry (migrate_gpu_to_cpu pt now vpn ga ca).1 v).isSome =
      (lookup_entry pt v).isSome := by
  unfold migrate_gpu_to_cpu
  split
  · rfl
  · split
    · rfl
    · dsimp only
      split
      · exact lookup_isSome_pt_update pt vpn _ v
      · rfl

/-! ## C1 — device-target fault when the allocator stays exhausted -/

/-- C1: the claim says that when the device allocator still returns 0
after the one eviction attempt, the fault aborts with the page left
host-only and the migration counters untouched. The code does not
abort: on `stateDeviceExhausted` (device pool with zero slots, empty
ledger, VPN 0 host-resident) the device-target resolution still runs
the counted migration against device address 0, marks the entry
device-resident with `gpu_address = 0`, and inserts VPN 0 into the
residency ledger. -/
theorem resolve_fault_device_exhausted_no_abort :
    (resolve_page_fault stateDeviceExhausted 0 true).counters.cpu_to_gpu_migrations = 1 ∧
    (resolve_page_fault stateDeviceExhausted 0 true).counters.total_bytes_migrated = 16 ∧
    (resolve_page_fault stateDeviceExhausted 0 true).counters.total_migration_time_us = 1 ∧
    lookup_entry (resolve_page_fault stateDeviceExhausted 0 true).page_table 0 =
      some { hostEntry with resident_on_gpu := true, gpu_address := 0, is_dirty := false } ∧
    0 ∈ (resolve_page_fault stateDeviceExhausted 0 true).ledger := by
  decide

/-! ## C2 — CLOCK victim selection on a zero reference bit -/

/-- C2: the claim says that when the hand finds a zero reference bit,
that same entry is returned and removed. On the pool
`[(7, bit 0), (8, bit 0)]` with the hand at 0 the code returns VPN 7
but first advances the hand ((0+1) mod 2 = 1) and erases at the
advanced position, removing the *neighbouring* entry 8 and leaving the
returned entry 7 in the pool (with the hand at 1 = the new size). -/
theorem clock_select_erases_neighbor :
    select_victim (Policy.clock [(7, false), (8, false)] 0 100) =
      (7, Policy.clock [(7, false)] 1 100) := by
  decide

/-! ## C3 — LRU access recency -/

/-- C3: the claim (and the repository's own test
`LRUPolicyTest.AccessUpdatesRecency`) expects that after allocating
VPN 0 then VPN 1 and accessing VPN 0, `select_victim` returns 1. The
code's `on_page_access` finds the VPN in the queue and then performs no
mutation, so the queue stays `[0, 1]` and `select_victim` returns 0. -/
theorem lru_access_recency_not_implemented :
    (select_victim (on_page_access (on_page_allocated (on_page_allocated
        (Policy.lru [] [] 100) 0) 1) 0)).1 = 0 := by
  decide

/-! ## C4 — free releases exactly the allocation's range -/

/-- C4: the claim says `free(vaddr)` releases exactly the VPNs of that
allocation and leaves every other live allocation untouched. On
`stateTwoAllocs` (allocation A = VPN 0, allocation B = VPN 1, both
single-page) freeing A recomputes the page count as the number of valid
entries with VPN ≥ 0 — which counts B as well — and therefore also
destroys B: B's page-table entry is gone, B's host slot (bitmap index
1) is released, and B's base address 16 is left dangling in the
base→VPN map. -/
theorem free_overcount_destroys_sibling :
    lookup_entry (vmm_free stateTwoAllocs 0).page_table 1 = none ∧
    (vmm_free stateTwoAllocs 0).alloc.cpu_page_bitmap = [false, false] ∧
    (vmm_free stateTwoAllocs 0).vaddr_map = [(16, 1)] := by
  decide

/-! ## C5 — validity checking in the synchronous migrations -/

/-- C5 counterexample: the claim says both synchronous migrations abort
and return 0 when the page table has no live entry for the VPN. For
`migrate_gpu_to_cpu` on the empty page table (valid non-null
addresses), the returned elapsed time is 1 microsecond, not 0: the
function has no validity check and still runs its delay. -/
theorem migrate_g2c_missing_entry_returns_nonzero :
    lookup_entry ([] : PT) 0 = none ∧
    (migrate_gpu_to_cpu [] 0 0 gpuBase 5).2.2 ≠ 0 := by
  decide

/-- C5 amended: only `migrate_cpu_to_gpu` validates the page-table
entry and aborts with 0 when it is missing; `migrate_gpu_to_cpu` leaves
the page table unchanged on a missing entry but still runs the delay
and returns the elapsed time (1, not 0). On a live entry (and non-null
addresses) each direction sets the destination residency flag and
destination address, and the host→device direction additionally clears
the dirty bit. -/
theorem sync_migration_validation_amended (pt : PT) (now vpn ca ga : Nat) :
    (lookup_entry pt vpn = none →
      migrate_cpu_to_gpu pt now vpn ca ga = (pt, now, 0)) ∧
    (lookup_entry pt vpn = none → ca ≠ 0 → ga ≠ 0 →
      migrate_gpu_to_cpu pt now vpn ga ca = (pt, now + 1, 1)) ∧
    ((lookup_entry pt vpn).isSome → ca ≠ 0 →
      migrate_cpu_to_gpu pt now vpn ca ga =
        (pt_update pt vpn (fun e =>
          { e with resident_on_gpu := true, gpu_address := ga, is_dirty := false }),
         now + 1, 1)) ∧
    ((lookup_entry pt vpn).isSome → ca ≠ 0 → ga ≠ 0 →
      migrate_gpu_to_cpu pt now vpn ga ca =
        (pt_update pt vpn (fun e =>
          { e with resident_on_cpu := true, cpu_address := ca }),
         now + 1, 1)) := by
  refine ⟨?_, ?_, ?_, ?_⟩
  · intro h
    simp [migrate_cpu_to_gpu, h]
  · intro h hca hga
    simp [migrate_gpu_to_cpu, h, hca, hga]
  · intro h hca
    simp [migrate_cpu_to_gpu, h, hca]
  · intro h hca hga
    simp [migrate_gpu_to_cpu, h, hca, hga]

/-- C5 witness: the amended statement applied to the empty page table
(missing entry, device→host direction) and to a one-entry table
(host→device direction with a live entry). -/
theorem sync_migration_validation_amended_witness :
    migrate_gpu_to_cpu [] 0 0 gpuBase 5 = ([], 1, 1) ∧
    migrate_cpu_to_gpu [(0, hostEntry)] 0 0 1 gpuBase =
      ([(0, { hostEntry with
                resident_on_gpu := true, gpu_address := gpuBase,
                is_dirty := false })], 1, 1) := by
  constructor
  · exact (sync_migration_validation_amended [] 0 0 5 gpuBase).2.1 rfl
      (by decide) (by decide)
  · have h := (sync_migration_validation_amended [(0, hostEntry)] 0 0 1 gpuBase).2.2.1
      (by decide) (by decide)
    rw [h]
    decide

/-! ## C6 — touch_page with a write -/

/-- C6 counterexample: the claim says that after
`touch_page(vaddr, is_write = true)` the page's entry has
`dirty = true` and `resident_host = true` for *every* vaddr, with a
lookup miss resolved to the host so the re-lookup finds a host-resident
entry. On the empty state the fault resolution of the unknown VPN 0
aborts without creating an entry, so after the touch no entry exists at
all (while `page_faults` was still incremented). -/
theorem touch_write_unmapped_creates_no_entry :
    ¬ (∃ e, lookup_entry (vmm_touch_page stateEmpty 0 true).page_table 0 = some e ∧
        e.is_dirty = true ∧ e.resident_on_cpu = true) := by
  intro h
  obtain ⟨e, he, -, -⟩ := h
  have hnone : lookup_entry (vmm_touch_page stateEmpty 0 true).page_table 0 = none := by
    decide
  rw [hnone] at he
  exact Option.noConfusion he

/-- C6 amended: for a vaddr whose VPN has a live page-table entry,
`touch_page(vaddr, is_write = true)` sets the dirty bit, bumps the
access counter and leaves the host-residency flag and host address as
they were (so they stay true for host-resident pages). On a lookup
miss the page-fault counter is incremented, but the resolution of the
unknown VPN aborts, the re-lookup still misses, and the page table is
left unchanged (no entry is created, nothing becomes dirty or
host-resident). -/
theorem touch_write_amended (s : VMState) (vaddr : Nat) :
    (∀ e, lookup_entry s.page_table (vaddr / s.page_size) = some e →
      ∃ e2, lookup_entry (vmm_touch_page s vaddr true).page_table (vaddr / s.page_size) =
          some e2 ∧
        e2.is_dirty = true ∧ e2.resident_on_cpu = e.resident_on_cpu ∧
        e2.cpu_address = e.cpu_address ∧ e2.access_count = e.access_count + 1) ∧
    (lookup_entry s.page_table (vaddr / s.page_size) = none →
      (vmm_touch_page s vaddr true).page_table = s.page_table ∧
      (vmm_touch_page s vaddr true).counters.total_page_faults =
        s.counters.total_page_faults + 1) := by
  constructor
  · intro e he
    simp only [vmm_touch_page, he]
    rw [lookup_entry_pt_update]
    simp [he]
  · intro he
    have hres := resolve_page_fault_none
      { s with counters :=
          { s.counters with total_page_faults := s.counters.total_page_faults + 1 } }
      (vaddr / s.page_size) false he
    simp only [vmm_touch_page, he, hres]
    simp

/-- C6 witness: the amended statement at `stateDeviceExhausted` (VPN 0
live and host-resident) and at `stateEmpty` (miss). -/
theorem touch_write_amended_witness :
    (∃ e2, lookup_entry
        (vmm_touch_page stateDeviceExhausted 0 true).page_table 0 = some e2 ∧
      e2.is_dirty = true ∧ e2.resident_on_cpu = hostEntry.resident_on_cpu ∧
      e2.cpu_address = hostEntry.cpu_address ∧
      e2.access_count = hostEntry.access_count + 1) ∧
    (vmm_touch_page stateEmpty 0 true).page_table = stateEmpty.page_table ∧
    (vmm_touch_page stateEmpty 0 true).counters.total_page_faults =
      stateEmpty.counters.total_page_faults + 1 := by
  refine ⟨?_, ?_⟩
  · exact (touch_write_amended stateDeviceExhausted 0).1 hostEntry (by decide)
  · exact (touch_write_amended stateEmpty 0).2 (by decide)

/-! ## C9 — the 0-sentinel of select_victim versus VPN 0 -/

/-- C9 counterexample: the claim says that whenever `select_victim`
returns 0 while the ledger is non-empty, eviction evicts an arbitrary
ledger member instead. On `stateLedgerZero` the LRU policy genuinely
selects VPN 0 (queue front) and the ledger is the non-empty `[0]` — but
the fallback picks `begin()` of the ledger, which is again 0, and the
subsequent `victim == 0` guard returns without evicting anything: the
ledger still holds 0, no eviction is counted, and the page stays fully
device-resident (only the LRU queue has lost its popped front). -/
theorem evict_zero_head_evicts_nothing :
    (select_victim stateLedgerZero.policy).1 = 0 ∧
    stateLedgerZero.ledger ≠ [] ∧
    (evict_page_from_gpu stateLedgerZero).ledger = [0] ∧
    (evict_page_from_gpu stateLedgerZero).counters.evictions = 0 ∧
    lookup_entry (evict_page_from_gpu stateLedgerZero).page_table 0 = some bothEntry := by
  decide

/-- C9 amended: when `select_victim` answers 0 with a non-empty ledger,
the policy's answer is discarded (and stays consumed: for LRU the
popped front is not restored). The victim becomes the first ledger
member in iteration order. If that member is itself 0 the eviction
does nothing at all; if it is a nonzero VPN with a live entry, that
ledger member — not the policy's choice — is evicted: it leaves the
ledger, the eviction counter increments and its entry loses device
residency. In particular VPN 0 itself is never evicted on a 0 answer:
it survives in the ledger either way. -/
theorem evict_zero_sentinel_amended (s : VMState) (h : Nat) (t : List Nat)
    (hled : s.ledger = h :: t) (hsel0 : (select_victim s.policy).1 = 0) :
    (evict_page_from_gpu s).policy = (select_victim s.policy).2 ∧
    (h = 0 → evict_page_from_gpu s = { s with policy := (select_victim s.policy).2 }) ∧
    (h ≠ 0 → ∀ e, lookup_entry s.page_table h = some e →
      (evict_page_from_gpu s).ledger = s.ledger.erase h ∧
      (evict_page_from_gpu s).counters.evictions = s.counters.evictions + 1 ∧
      (∃ e2, lookup_entry (evict_page_from_gpu s).page_table h = some e2 ∧
        e2.resident_on_gpu = false ∧ e2.gpu_address = 0)) ∧
    (0 ∈ s.ledger → 0 ∈ (evict_page_from_gpu s).ledger) := by
  rcases hp : select_victim s.policy with ⟨v0, pol1⟩
  rw [hp] at hsel0
  have hv0 : v0 = 0 := hsel0
  subst hv0
  by_cases h0 : h = 0
  · subst h0
    simp only [evict_page_from_gpu, hled, hp]
    refine ⟨rfl, fun _ => ?_, fun hne => absurd rfl hne, fun hm => ?_⟩
    · simp [hled]
    · simp [hled]
  · simp only [evict_page_from_gpu, hled, hp, if_true, if_neg h0]
    cases hlook : lookup_entry s.page_table h with
    | none =>
      refine ⟨rfl, fun h0' => absurd h0' h0,
        fun _ e he => Option.noConfusion he, fun hm => ?_⟩
      simpa [hled] using hm
    | some e =>
      refine ⟨?_, fun h0' => absurd h0' h0, fun _ e0 he0 => ⟨?_, ?_, ?_⟩, fun hm => ?_⟩
      · by_cases hd : e.is_dirty = true ∧ e.resident_on_cpu = true <;> simp [hd]
      · by_cases hd : e.is_dirty = true ∧ e.resident_on_cpu = true <;> simp [hd, hled]
      · by_cases hd : e.is_dirty = true ∧ e.resident_on_cpu = true <;>
          simp [hd, chargeG2C]
      · by_cases hd : e.is_dirty = true ∧ e.resident_on_cpu = true
        · simp only [if_pos hd]
          have hs : (lookup_entry
              (migrate_gpu_to_cpu s.page_table s.now h e.gpu_address e.cpu_address).1
              h).isSome = true := by
            rw [lookup_isSome_migrate_g2c, hlook]; rfl
          obtain ⟨e2, he2⟩ := Option.isSome_iff_exists.mp hs
          rw [lookup_entry_pt_update, if_pos rfl, he2]
          exact ⟨_, rfl, rfl, rfl⟩
        · simp only [if_neg hd]
          rw [lookup_entry_pt_update, if_pos rfl, hlook]
          exact ⟨_, rfl, rfl, rfl⟩
      · have hmt : 0 ∈ h :: t := hm
        rcases List.mem_cons.mp hmt with hm0 | hm1
        · exact absurd hm0.symm h0
        · by_cases hd : e.is_dirty = true ∧ e.resident_on_cpu = true <;>
            simp [hd, hled, List.erase_cons_head, hm1]

/-- C9 witness: the amended statement on `stateLedgerFive` — the LRU
queue front is the genuine VPN 0, the ledger is `[5]`; the eviction
takes ledger member 5, not the policy's 0. -/
theorem evict_zero_sentinel_amended_witness :
    (evict_page_from_gpu stateLedgerFive).ledger = [] ∧
    (evict_page_from_gpu stateLedgerFive).counters.evictions = 1 ∧
    (evict_page_from_gpu stateLedgerFive).policy = Policy.lru [] [] 65536 := by
  have ha := evict_zero_sentinel_amended stateLedgerFive 5 [] (by decide) (by decide)
  obtain ⟨hpol, -, h3, -⟩ := ha
  obtain ⟨hl, hc, -⟩ := h3 (by decide) bothEntry (by decide)
  refine ⟨?_, ?_, ?_⟩
  · rw [hl]; decide
  · rw [hc]; decide
  · rw [hpol]; decide

/-! ## C7 toolkit: bitmap and allocator lemmas -/

/-- Setting one bitmap slot leaves the others readable unchanged. -/
theorem bit_getD_set_ne (l : List Bool) (i j : Nat) (v d : Bool) (h : i ≠ j) :
    (l.set i v).getD j d = l.getD j d := by
  induction l generalizing i j with
  | nil => rfl
  | cons b t ih =>
    cases i with
    | zero =>
      cases j with
      | zero => exact absurd rfl h
      | succ j => rfl
    | succ i =>
      cases j with
      | zero => rfl
      | succ j =>
        simp only [List.set, List.getD, List.get?]
        exact ih i j (fun hx => h (congrArg Nat.succ hx))

/-- Reading back the slot just set. -/
theorem bit_getD_set_self (l : List Bool) (i : Nat) (v d : Bool) (h : i < l.length) :
    (l.set i v).getD i d = v := by
  induction l generalizing i with
  | nil => simp at h
  | cons b t ih =>
    cases i with
    | zero => rfl
    | succ i =>
      simp only [List.set, List.getD, List.get?]
      exact ih i (Nat.lt_of_succ_lt_succ h)

/-- Writing the value a slot already holds changes nothing. -/
theorem bit_set_getD_self (l : List Bool) (i : Nat) (v : Bool)
    (h : l.getD i v = v) : l.set i v = l := by
  induction l generalizing i with
  | nil => rfl
  | cons b t ih =>
    cases i with
    | zero =>
      simp only [List.getD, List.get?, Option.getD_some] at h
      simp [List.set, h]
    | succ i =>
      simp only [List.set]
      rw [ih i h]

/-- The first-free-slot scan returns an in-range index. -/
theorem findFreeIdx_lt_length (l : List Bool) (i : Nat) (h : findFreeIdx l = some i) :
    i < l.length := by
  induction l generalizing i with
  | nil => exact Option.noConfusion h
  | cons b t ih =>
    by_cases hb : b = false
    · simp only [findFreeIdx, if_pos hb] at h
      cases h
      simp
    · simp only [findFreeIdx, if_neg hb] at h
      cases hf : findFreeIdx t with
      | none => rw [hf] at h; exact Option.noConfusion h
      | some j =>
        rw [hf] at h
        cases h
        simpa using ih j hf

/-- The first-free-slot scan returns a slot that is indeed free. -/
theorem findFreeIdx_getD (l : List Bool) (i : Nat) (h : findFreeIdx l = some i) :
    l.getD i false = false := by
  induction l generalizing i with
  | nil => exact Option.noConfusion h
  | cons b t ih =>
    by_cases hb : b = false
    · simp only [findFreeIdx, if_pos hb] at h
      cases h
      simpa using hb
    · simp only [findFreeIdx, if_neg hb] at h
      cases hf : findFreeIdx t with
      | none => rw [hf] at h; exact Option.noConfusion h
      | some j =>
        rw [hf] at h
        cases h
        simpa [List.getD, List.get?] using ih j hf

/-- `clearCpuSlot` never changes the configuration fields or the bitmap
length. -/
theorem clearCpuSlot_fields (a : PageAllocator) (i : Nat) :
    (clearCpuSlot a i).page_size = a.page_size ∧
    (clearCpuSlot a i).cpu_base = a.cpu_base ∧
    (clearCpuSlot a i).cpu_pool_size = a.cpu_pool_size ∧
    (clearCpuSlot a i).cpu_page_bitmap.length = a.cpu_page_bitmap.length := by
  unfold clearCpuSlot
  split <;> simp

/-- Setting two distinct bitmap slots commutes. -/
theorem bit_set_comm (l : List Bool) (i j : Nat) (x y : Bool) (h : i ≠ j) :
    (l.set i x).set j y = (l.set j y).set i x := by
  induction l generalizing i j with
  | nil => rfl
  | cons b t ih =>
    cases i with
    | zero =>
      cases j with
      | zero => exact absurd rfl h
      | succ j => rfl
    | succ i =>
      cases j with
      | zero => rfl
      | succ j =>
        simp only [List.set]
        rw [ih i j (fun hx => h (congrArg Nat.succ hx))]

/-- Clearing two slots commutes. -/
theorem clearCpuSlot_comm (a : PageAllocator) (i j : Nat) :
    clearCpuSlot (clearCpuSlot a i) j = clearCpuSlot (clearCpuSlot a j) i := by
  by_cases hij : i = j
  · rw [hij]
  · have hji : j ≠ i := fun h => hij h.symm
    by_cases hi : i < a.cpu_page_bitmap.length ∧ a.cpu_page_bitmap.getD i false = true <;>
      by_cases hj : j < a.cpu_page_bitmap.length ∧ a.cpu_page_bitmap.getD j false = true
    · have e_i : clearCpuSlot a i =
          { a with cpu_page_bitmap := a.cpu_page_bitmap.set i false,
                   cpu_pages_allocated := a.cpu_pages_allocated - 1 } := by
        unfold clearCpuSlot; rw [if_pos hi]
      have e_j : clearCpuSlot a j =
          { a with cpu_page_bitmap := a.cpu_page_bitmap.set j false,
                   cpu_pages_allocated := a.cpu_pages_allocated - 1 } := by
        unfold clearCpuSlot; rw [if_pos hj]
      rw [e_i, e_j]
      unfold clearCpuSlot
      rw [if_pos ⟨by simpa using hj.1,
            by show (a.cpu_page_bitmap.set i false).getD j false = true
               rw [bit_getD_set_ne _ _ _ _ _ hij]; exact hj.2⟩,
          if_pos ⟨by simpa using hi.1,
            by show (a.cpu_page_bitmap.set j false).getD i false = true
               rw [bit_getD_set_ne _ _ _ _ _ hji]; exact hi.2⟩]
      simp [bit_set_comm _ _ _ _ _ hij]
    · have e_i : clearCpuSlot a i =
          { a with cpu_page_bitmap := a.cpu_page_bitmap.set i false,
                   cpu_pages_allocated := a.cpu_pages_allocated - 1 } := by
        unfold clearCpuSlot; rw [if_pos hi]
      have e_j0 : clearCpuSlot a j = a := by
        unfold clearCpuSlot; rw [if_neg hj]
      rw [e_i, e_j0, e_i]
      unfold clearCpuSlot
      rw [if_neg (fun hc => hj ⟨by simpa using hc.1,
            by rw [← bit_getD_set_ne a.cpu_page_bitmap i j false false hij]
               exact hc.2⟩)]
    · have e_j : clearCpuSlot a j =
          { a with cpu_page_bitmap := a.cpu_page_bitmap.set j false,
                   cpu_pages_allocated := a.cpu_pages_allocated - 1 } := by
        unfold clearCpuSlot; rw [if_pos hj]
      have e_i0 : clearCpuSlot a i = a := by
        unfold clearCpuSlot; rw [if_neg hi]
      rw [e_i0, e_j]
      unfold clearCpuSlot
      rw [if_neg (fun hc => hi ⟨by simpa using hc.1,
            by rw [← bit_getD_set_ne a.cpu_page_bitmap j i false false hji]
               exact hc.2⟩)]
    · have e_i0 : clearCpuSlot a i = a := by
        unfold clearCpuSlot; rw [if_neg hi]
      have e_j0 : clearCpuSlot a j = a := by
        unfold clearCpuSlot; rw [if_neg hj]
      rw [e_i0, e_j0, e_i0]

/-- A host-slot pointer outside the pool (or null, or pointing at an
already-free slot handled inside `clearCpuSlot`) deallocates to the
same state. -/
theorem dealloc_cpu_invalid (a : PageAllocator) (p : Nat)
    (h : p = 0 ∨ p < a.cpu_base ∨ a.cpu_pool_size ≤ p - a.cpu_base) :
    deallocate_cpu_page a p = a := by
  unfold deallocate_cpu_page
  by_cases h0 : p = 0
  · rw [if_pos h0]
  · rw [if_neg h0]
    by_cases hb : p < a.cpu_base
    · rw [if_pos hb]
    · rw [if_neg hb]
      dsimp only
      have hpo : a.cpu_pool_size ≤ p - a.cpu_base := by
        rcases h with h | h | h
        · exact absurd h h0
        · exact absurd h hb
        · exact h
      rw [if_pos hpo]

/-- An in-pool host-slot pointer deallocates through `clearCpuSlot`. -/
theorem dealloc_cpu_valid (a : PageAllocator) (p : Nat)
    (h0 : p ≠ 0) (hb : ¬ p < a.cpu_base) (hpo : ¬ a.cpu_pool_size ≤ p - a.cpu_base) :
    deallocate_cpu_page a p = clearCpuSlot a ((p - a.cpu_base) / a.page_size) := by
  unfold deallocate_cpu_page
  rw [if_neg h0, if_neg hb]
  dsimp only
  rw [if_neg hpo]

/-- Two host-slot deallocations commute. -/
theorem dealloc_cpu_comm (a : PageAllocator) (p q : Nat) :
    deallocate_cpu_page (deallocate_cpu_page a p) q =
      deallocate_cpu_page (deallocate_cpu_page a q) p := by
  obtain ⟨f1, f2, f3, -⟩ := clearCpuSlot_fields a ((p - a.cpu_base) / a.page_size)
  obtain ⟨g1, g2, g3, -⟩ := clearCpuSlot_fields a ((q - a.cpu_base) / a.page_size)
  by_cases hp : p = 0 ∨ p < a.cpu_base ∨ a.cpu_pool_size ≤ p - a.cpu_base <;>
    by_cases hq : q = 0 ∨ q < a.cpu_base ∨ a.cpu_pool_size ≤ q - a.cpu_base
  · rw [dealloc_cpu_invalid a p hp, dealloc_cpu_invalid a q hq,
        dealloc_cpu_invalid a p hp]
  · push_neg at hq
    rw [dealloc_cpu_invalid a p hp,
        dealloc_cpu_valid a q hq.1 (by omega) (by omega),
        dealloc_cpu_invalid _ p (by rw [g2, g3]; exact hp)]
  · push_neg at hp
    rw [dealloc_cpu_valid a p hp.1 (by omega) (by omega),
        dealloc_cpu_invalid a q hq,
        dealloc_cpu_valid a p hp.1 (by omega) (by omega),
        dealloc_cpu_invalid _ q (by rw [f2, f3]; exact hq)]
  · push_neg at hp
    push_neg at hq
    rw [dealloc_cpu_valid a p hp.1 (by omega) (by omega),
        dealloc_cpu_valid a q hq.1 (by omega) (by omega),
        dealloc_cpu_valid _ q hq.1 (by rw [f2]; omega) (by rw [f2, f3]; omega),
        dealloc_cpu_valid _ p hp.1 (by rw [g2]; omega) (by rw [g2, g3]; omega),
        f1, f2, g1, g2]
    exact clearCpuSlot_comm a _ _

/-- Deallocations can be pulled out of a left fold. -/
theorem foldl_dealloc_swap (l : List Nat) (a : PageAllocator) (p : Nat) :
    l.foldl deallocate_cpu_page (deallocate_cpu_page a p) =
      deallocate_cpu_page (l.foldl deallocate_cpu_page a) p := by
  induction l generalizing a with
  | nil => rfl
  | cons q t ih =>
    simp only [List.foldl_cons]
    rw [dealloc_cpu_comm]
    exact ih _

/-- `allocate_cpu_page` leaves the configuration fields and the bitmap
length unchanged. -/
theorem alloc_cpu_fields (a a1 : PageAllocator) (p : Nat)
    (h : allocate_cpu_page a = (a1, p)) :
    a1.page_size = a.page_size ∧ a1.cpu_base = a.cpu_base ∧
    a1.cpu_pool_size = a.cpu_pool_size ∧
    a1.cpu_page_bitmap.length = a.cpu_page_bitmap.length := by
  unfold allocate_cpu_page at h
  cases hf : findFreeIdx a.cpu_page_bitmap with
  | none =>
    rw [hf] at h
    cases h
    exact ⟨rfl, rfl, rfl, rfl⟩
  | some i =>
    rw [hf] at h
    cases h
    simp

/-- With a non-null pool base, a failed host-slot allocation returns the
state unchanged. -/
theorem alloc_cpu_fail_eq (a a1 : PageAllocator) (hB : 0 < a.cpu_base)
    (h : allocate_cpu_page a = (a1, 0)) : a1 = a := by
  unfold allocate_cpu_page at h
  cases hf : findFreeIdx a.cpu_page_bitmap with
  | none =>
    rw [hf] at h
    cases h
    rfl
  | some i =>
    rw [hf] at h
    injection h with h1 h2
    exact absurd h2 (by omega)

/-- Deallocating the slot just allocated restores the allocator
exactly. -/
theorem dealloc_alloc_cpu (a a1 : PageAllocator) (p : Nat)
    (hS : 0 < a.page_size) (hB : 0 < a.cpu_base)
    (hPool : a.cpu_page_bitmap.length * a.page_size ≤ a.cpu_pool_size)
    (h : allocate_cpu_page a = (a1, p)) (hp : p ≠ 0) :
    deallocate_cpu_page a1 p = a := by
  unfold allocate_cpu_page at h
  cases hf : findFreeIdx a.cpu_page_bitmap with
  | none =>
    rw [hf] at h
    cases h
    exact absurd rfl hp
  | some i =>
    rw [hf] at h
    cases h
    have hlt : i < a.cpu_page_bitmap.length := findFreeIdx_lt_length _ _ hf
    have hfree : a.cpu_page_bitmap.getD i false = false := findFreeIdx_getD _ _ hf
    have hoff : a.cpu_base + i * a.page_size - a.cpu_base = i * a.page_size := by omega
    have hio : i * a.page_size < a.cpu_pool_size := by
      have h1 : i * a.page_size < a.cpu_page_bitmap.length * a.page_size :=
        (Nat.mul_lt_mul_right hS).mpr hlt
      omega
    rw [dealloc_cpu_valid _ _ (by omega)
        (by show ¬ a.cpu_base + i * a.page_size < a.cpu_base; omega)
        (by show ¬ a.cpu_pool_size ≤ a.cpu_base + i * a.page_size - a.cpu_base
            rw [hoff]; omega)]
    show clearCpuSlot _ ((a.cpu_base + i * a.page_size - a.cpu_base) / a.page_size) = a
    rw [hoff, Nat.mul_div_cancel i hS]
    unfold clearCpuSlot
    rw [if_pos ⟨by simpa using hlt, by
          show (a.cpu_page_bitmap.set i true).getD i false = true
          rw [bit_getD_set_self _ _ _ _ hlt]⟩]
    show ({ a with
        cpu_page_bitmap := (a.cpu_page_bitmap.set i true).set i false,
        cpu_pages_allocated := a.cpu_pages_allocated + 1 - 1 } : PageAllocator) = a
    rw [List.set_set, bit_set_getD_self _ _ _ hfree, Nat.add_sub_cancel]

/-- Rolling back the host slots taken by a failed run of the
per-VPN loop of `allocate` restores the allocator exactly. -/
theorem host_loop_fail_rollback (now : Nat) :
    ∀ (n vpn : Nat) (a : PageAllocator) (pt : PT) (pol : Policy)
      (af : PageAllocator) (ptf : PT) (polf : Policy) (ps : List Nat),
      0 < a.page_size → 0 < a.cpu_base →
      a.cpu_page_bitmap.length * a.page_size ≤ a.cpu_pool_size →
      host_alloc_loop now vpn n a pt pol = .fail af ptf polf ps →
      ps.foldl deallocate_cpu_page af = a := by
  intro n
  induction n with
  | zero =>
    intro vpn a pt pol af ptf polf ps _ _ _ hrun
    exact HostLoop.noConfusion hrun
  | succ n ih =>
    intro vpn a pt pol af ptf polf ps hS hB hP hrun
    unfold host_alloc_loop at hrun
    rcases hr : allocate_cpu_page a with ⟨a1, pv⟩
    rw [hr] at hrun
    dsimp only at hrun
    by_cases hz : pv = 0
    · rw [if_pos hz] at hrun
      cases hrun
      rw [hz] at hr
      rw [alloc_cpu_fail_eq a af hB hr]
      rfl
    · rw [if_neg hz] at hrun
      obtain ⟨e1, e2, e3, e4⟩ := alloc_cpu_fields a a1 pv hr
      cases hrec : host_alloc_loop now (vpn + 1) n a1
          (update_access_time (set_cpu_resident pt vpn pv now) vpn now)
          (on_page_allocated pol vpn) with
      | ok a2 pt2 pol2 ps2 =>
        rw [hrec] at hrun
        exact HostLoop.noConfusion hrun
      | fail a2 pt2 pol2 ps2 =>
        rw [hrec] at hrun
        cases hrun
        have hroll : ps2.foldl deallocate_cpu_page af = a1 :=
          ih (vpn + 1) a1 _ _ af ptf polf ps2
            (by rw [e1]; exact hS) (by rw [e2]; exact hB)
            (by rw [e4, e1, e3]; exact hP) hrec
        calc (pv :: ps2).foldl deallocate_cpu_page af
            = ps2.foldl deallocate_cpu_page (deallocate_cpu_page af pv) := rfl
          _ = deallocate_cpu_page (ps2.foldl deallocate_cpu_page af) pv :=
              foldl_dealloc_swap ps2 af pv
          _ = deallocate_cpu_page a1 pv := by rw [hroll]
          _ = a := dealloc_alloc_cpu a a1 pv hS hB hP hr hz

/-- Lookup through an appended table: the left part wins. -/
theorem lookup_entry_append (pt q : PT) (k : Nat) :
    lookup_entry (pt ++ q) k =
      match lookup_entry pt k with
      | some e => some e
      | none => lookup_entry q k := by
  induction pt with
  | nil => rfl
  | cons p t ih =>
    by_cases hk : p.1 = k
    · simp [lookup_entry, hk]
    · simp [lookup_entry, hk, ih]

/-- A successful range reservation appends exactly the fresh default
entries, and certifies that none of the range's VPNs was present. -/
theorem alloc_range_ok (pt : PT) (v n : Nat)
    (h : (alloc_range pt v n).2 = true) :
    (alloc_range pt v n).1 = pt ++ range_entries v n ∧
    ∀ i, i < n → lookup_entry pt (v + i) = none := by
  induction n generalizing pt v with
  | zero => exact ⟨by simp [alloc_range, range_entries], fun i hi => absurd hi (by omega)⟩
  | succ n ih =>
    by_cases hv : (lookup_entry pt v).isSome
    · rw [show alloc_range pt v (n + 1) = (pt, false) from by
        unfold alloc_range; rw [if_pos hv]] at h
      exact Bool.noConfusion h
    · have hnone : lookup_entry pt v = none := by
        cases hl : lookup_entry pt v
        · rfl
        · rw [hl] at hv; exact absurd rfl hv
      have hstep : alloc_range pt v (n + 1) =
          alloc_range (pt ++ [(v, { PageTableEntry.init with is_valid := true })]) (v + 1) n := by
        conv_lhs => rw [alloc_range]
        rw [if_neg hv]
      rw [hstep] at h ⊢
      obtain ⟨hshape, hprev⟩ := ih _ _ h
      constructor
      · rw [hshape, List.append_assoc]
        rfl
      · intro i hi
        cases i with
        | zero => simpa using hnone
        | succ i =>
          have := hprev i (by omega)
          rw [lookup_entry_append] at this
          rw [show v + (i + 1) = v + 1 + i from by omega]
          cases hl : lookup_entry pt (v + 1 + i)
          · rfl
          · rw [hl] at this; exact Option.noConfusion this

/-- A pointer write at a key the filter rejects does not change the
filtered table. -/
theorem filter_pt_update (pt : PT) (k : Nat) (f : PageTableEntry → PageTableEntry)
    (P : Nat → Bool) (hk : P k = false) :
    (pt_update pt k f).filter (fun p => P p.1) = pt.filter (fun p => P p.1) := by
  induction pt with
  | nil => rfl
  | cons p t ih =>
    by_cases hpk : p.1 = k
    · simp only [pt_update, List.map_cons, if_pos hpk, List.filter_cons]
      rw [hpk, hk]
      simpa [pt_update] using ih
    · simp only [pt_update, List.map_cons, if_neg hpk, List.filter_cons]
      cases hP : P p.1 <;> simpa [pt_update, hP] using ih

/-- Erasing a VPN range is filtering out its keys. -/
theorem dealloc_range_eq_filter (pt : PT) (v n : Nat) :
    dealloc_range pt v n =
      pt.filter (fun p => decide (p.1 < v ∨ v + n ≤ p.1)) := by
  induction n generalizing pt v with
  | zero =>
    unfold dealloc_range
    exact (List.filter_eq_self.mpr (fun p _ => by simp; omega)).symm
  | succ n ih =>
    show dealloc_range (pt.filter (fun p => p.1 ≠ v)) (v + 1) n = _
    rw [ih, List.filter_filter]
    refine List.filter_congr (fun p _ => ?_)
    rw [← Bool.decide_and]
    exact decide_eq_decide.mpr (by omega)

/-- The fresh range entries all fail an out-of-range filter. -/
theorem range_entries_filter (v n : Nat) (P : Nat → Bool)
    (h : ∀ i, i < n → P (v + i) = false) :
    (range_entries v n).filter (fun p => P p.1) = [] := by
  induction n generalizing v with
  | zero => rfl
  | succ n ih =>
    show List.filter _ ((v, _) :: range_entries (v + 1) n) = []
    rw [List.filter_cons]
    have h0 : P v = false := by simpa using h 0 (by omega)
    rw [h0]
    simp only [cond_false]
    exact ih (v + 1) (fun i hi => by
      rw [show v + 1 + i = v + (i + 1) from by omega]; exact h (i + 1) (by omega))

/-- A present pair's key always resolves. -/
theorem lookup_isSome_of_mem (pt : PT) (p : Nat × PageTableEntry) (h : p ∈ pt) :
    (lookup_entry pt p.1).isSome = true := by
  induction pt with
  | nil => exact absurd h (List.not_mem_nil p)
  | cons q t ih =>
    by_cases hq : q.1 = p.1
    · simp [lookup_entry, hq]
    · rcases List.mem_cons.mp h with h1 | h1
      · rw [h1] at hq; exact absurd rfl hq
      · simp [lookup_entry, hq, ih h1]

/-- The host-slot loop only writes inside its VPN range: filtering by a
predicate that rejects the whole range is invariant, including on the
failing run. -/
theorem host_loop_fail_filter (now : Nat) (P : Nat → Bool) :
    ∀ (n vpn : Nat) (a : PageAllocator) (pt : PT) (pol : Policy)
      (af : PageAllocator) (ptf : PT) (polf : Policy) (ps : List Nat),
      (∀ i, i < n → P (vpn + i) = false) →
      host_alloc_loop now vpn n a pt pol = .fail af ptf polf ps →
      ptf.filter (fun p => P p.1) = pt.filter (fun p => P p.1) := by
  intro n
  induction n with
  | zero =>
    intro vpn a pt pol af ptf polf ps _ hrun
    exact HostLoop.noConfusion hrun
  | succ n ih =>
    intro vpn a pt pol af ptf polf ps hP hrun
    unfold host_alloc_loop at hrun
    rcases hr : allocate_cpu_page a with ⟨a1, pv⟩
    rw [hr] at hrun
    dsimp only at hrun
    by_cases hz : pv = 0
    · rw [if_pos hz] at hrun
      cases hrun
      rfl
    · rw [if_neg hz] at hrun
      cases hrec : host_alloc_loop now (vpn + 1) n a1
          (update_access_time (set_cpu_resident pt vpn pv now) vpn now)
          (on_page_allocated pol vpn) with
      | ok a2 pt2 pol2 ps2 =>
        rw [hrec] at hrun
        exact HostLoop.noConfusion hrun
      | fail a2 pt2 pol2 ps2 =>
        rw [hrec] at hrun
        cases hrun
        have h0 : P vpn = false := by simpa using hP 0 (by omega)
        have hrest := ih (vpn + 1) a1 _ _ af ptf polf ps2
          (fun i hi => by
            rw [show vpn + 1 + i = vpn + (i + 1) from by omega]
            exact hP (i + 1) (by omega)) hrec
        rw [hrest]
        unfold update_access_time set_cpu_resident
        rw [filter_pt_update _ _ _ _ h0, filter_pt_update _ _ _ _ h0]

/-! ## C7 — allocate rolls back cleanly on host-slot exhaustion -/

/-- C7: if `allocate` reserves its VPN range but some host-slot request
returns null, the failure path deallocates every host slot taken so far
and the whole reserved VPN range and returns null, leaving the
allocator (both occupancy bitmaps and counters), the page table, the
performance counters, the VPN counter, the base-address map and the
residency ledger exactly as before the call. -/
theorem allocate_host_failure_rollback (s : VMState) (bytes : Nat) (pre : Bool)
    (af : PageAllocator) (ptf : PT) (polf : Policy) (ps : List Nat)
    (hS : 0 < s.alloc.page_size) (hB : 0 < s.alloc.cpu_base)
    (hPool : s.alloc.cpu_page_bitmap.length * s.alloc.page_size ≤ s.alloc.cpu_pool_size)
    (hRange : (alloc_range s.page_table s.next_vpn
        (align_to_page bytes s.page_size / s.page_size)).2 = true)
    (hFail : host_alloc_loop s.now s.next_vpn
        (align_to_page bytes s.page_size / s.page_size) s.alloc
        (alloc_range s.page_table s.next_vpn
          (align_to_page bytes s.page_size / s.page_size)).1 s.policy
        = .fail af ptf polf ps) :
    (vmm_allocate s bytes pre).2 = 0 ∧
    (vmm_allocate s bytes pre).1.alloc = s.alloc ∧
    (vmm_allocate s bytes pre).1.page_table = s.page_table ∧
    (vmm_allocate s bytes pre).1.counters = s.counters ∧
    (vmm_allocate s bytes pre).1.next_vpn = s.next_vpn ∧
    (vmm_allocate s bytes pre).1.vaddr_map = s.vaddr_map ∧
    (vmm_allocate s bytes pre).1.ledger = s.ledger := by
  have hred : vmm_allocate s bytes pre =
      ({ s with alloc := ps.foldl deallocate_cpu_page af,
                page_table := dealloc_range ptf s.next_vpn
                  (align_to_page bytes s.page_size / s.page_size),
                policy := polf }, 0) := by
    simp only [vmm_allocate, hRange, hFail]
    simp
  rw [hred]
  refine ⟨rfl, ?_, ?_, rfl, rfl, rfl, rfl⟩
  · exact host_loop_fail_rollback s.now _ s.next_vpn s.alloc _ s.policy
      af ptf polf ps hS hB hPool hFail
  · obtain ⟨hshape, hprev⟩ := alloc_range_ok s.page_table s.next_vpn
      (align_to_page bytes s.page_size / s.page_size) hRange
    have hPr : ∀ i, i < align_to_page bytes s.page_size / s.page_size →
        (fun k => decide (k < s.next_vpn ∨
          s.next_vpn + align_to_page bytes s.page_size / s.page_size ≤ k))
          (s.next_vpn + i) = false := by
      intro i hi
      exact decide_eq_false (by omega)
    have hfilt := host_loop_fail_filter s.now
      (fun k => decide (k < s.next_vpn ∨
        s.next_vpn + align_to_page bytes s.page_size / s.page_size ≤ k))
      (align_to_page bytes s.page_size / s.page_size) s.next_vpn s.alloc _ s.policy
      af ptf polf ps hPr hFail
    have hre := range_entries_filter s.next_vpn
      (align_to_page bytes s.page_size / s.page_size)
      (fun k => decide (k < s.next_vpn ∨
        s.next_vpn + align_to_page bytes s.page_size / s.page_size ≤ k)) hPr
    show dealloc_range ptf s.next_vpn (align_to_page bytes s.page_size / s.page_size) =
      s.page_table
    rw [dealloc_range_eq_filter, hfilt, hshape, List.filter_append, hre,
        List.append_nil]
    refine List.filter_eq_self.mpr (fun p hp => ?_)
    have hs := lookup_isSome_of_mem s.page_table p hp
    by_contra hfalse
    rw [decide_eq_true_eq] at hfalse
    push_neg at hfalse
    obtain ⟨h1, h2⟩ := hfalse
    have hlk := hprev (p.1 - s.next_vpn) (by omega)
    rw [show s.next_vpn + (p.1 - s.next_vpn) = p.1 from by omega] at hlk
    rw [hlk] at hs
    exact Bool.noConfusion hs

/-- C7 witness: on `stateDeviceExhausted` (one host slot left) a
two-page allocation takes one slot, fails on the second, and the
rollback restores the allocator and the page table. -/
theorem allocate_host_failure_rollback_witness :
    (vmm_allocate stateDeviceExhausted 32 false).2 = 0 ∧
    (vmm_allocate stateDeviceExhausted 32 false).1.alloc = stateDeviceExhausted.alloc ∧
    (vmm_allocate stateDeviceExhausted 32 false).1.page_table =
      stateDeviceExhausted.page_table := by
  have h := allocate_host_failure_rollback stateDeviceExhausted 32 false
    { page_size := 16, cpu_pool_size := 32, cpu_base := 1,
      cpu_page_bitmap := [true, true], cpu_pages_allocated := 2,
      gpu_page_bitmap := [], gpu_pages_allocated := 0 }
    [(0, hostEntry),
     (1, { hostEntryB with access_count := 1 }),
     (2, { PageTableEntry.init with is_valid := true })]
    (Policy.lru [0, 1] [1, 0] 65536) [17]
    (by decide) (by decide) (by decide) (by decide) (by decide)
  exact ⟨h.1, h.2.1, h.2.2.1⟩

/-! ## C8 toolkit: every façade path preserves the byte accounting -/

/-- Eviction preserves the byte accounting. -/
theorem evict_bytesInv (s : VMState) (h : bytesInv s) :
    bytesInv (evict_page_from_gpu s) := by
  unfold bytesInv at h ⊢
  unfold evict_page_from_gpu
  cases hl : s.ledger with
  | nil => exact h
  | cons hd tl =>
    rcases hsel : select_victim s.policy with ⟨v0, pol1⟩
    dsimp only
    generalize (if v0 = 0 then hd else v0) = victim
    split
    · exact h
    · split
      · exact h
      · split
        · simp only [chargeG2C]
          rw [h]; ring
        · exact h

/-- The migrate-and-mark tail of a device-target fault preserves the
byte accounting. -/
theorem device_fault_finish_bytesInv (s1 : VMState) (vpn : Nat) (h : bytesInv s1) :
    bytesInv (device_fault_finish s1 vpn) := by
  unfold bytesInv at h ⊢
  unfold device_fault_finish
  split
  · exact h
  · split
    · simp only [chargeC2G]
      rw [h]; ring
    · exact h

/-- The slot request, eviction attempt and tail of a device-target
fault preserve the byte accounting. -/
theorem device_fault_body_bytesInv (s : VMState) (vpn : Nat) (e0 : PageTableEntry)
    (h : bytesInv s) : bytesInv (device_fault_body s vpn e0) := by
  unfold device_fault_body
  by_cases hg : e0.gpu_address = 0
  · rw [if_pos hg]
    dsimp only
    by_cases hz : (allocate_gpu_page s.alloc).2 = 0
    · rw [if_pos hz]
      exact device_fault_finish_bytesInv _ _ (evict_bytesInv _ h)
    · rw [if_neg hz]
      exact device_fault_finish_bytesInv _ _ h
  · rw [if_neg hg]
    exact device_fault_finish_bytesInv _ _ h

/-- The host-target fault path preserves the byte accounting. -/
theorem host_fault_finish_bytesInv (s1 : VMState) (vpn : Nat) (h : bytesInv s1) :
    bytesInv (host_fault_finish s1 vpn) := by
  unfold bytesInv at h ⊢
  unfold host_fault_finish
  split
  · exact h
  · split
    · simp only [chargeG2C]
      rw [h]; ring
    · exact h

/-- The host-target fault body preserves the byte accounting. -/
theorem host_fault_body_bytesInv (s : VMState) (vpn : Nat) (e0 : PageTableEntry)
    (h : bytesInv s) : bytesInv (host_fault_body s vpn e0) := by
  unfold host_fault_body
  by_cases hc : e0.cpu_address = 0
  · rw [if_pos hc]
    exact host_fault_finish_bytesInv _ _ h
  · rw [if_neg hc]
    exact host_fault_finish_bytesInv _ _ h

/-- Fault resolution preserves the byte accounting. -/
theorem resolve_bytesInv (s : VMState) (vpn : Nat) (g : Bool) (h : bytesInv s) :
    bytesInv (resolve_page_fault s vpn g) := by
  unfold resolve_page_fault
  split
  · exact h
  · split
    · split
      · exact h
      · exact device_fault_body_bytesInv _ _ _ h
    · split
      · exact h
      · exact host_fault_body_bytesInv _ _ _ h

/-- `map_to_cpu` preserves the byte accounting. -/
theorem map_to_cpu_bytesInv (s : VMState) (vaddr : Nat) (h : bytesInv s) :
    bytesInv (vmm_map_to_cpu s vaddr) := by
  unfold vmm_map_to_cpu
  dsimp only
  split
  · exact h
  · split
    · exact resolve_bytesInv _ _ _ h
    · exact h

/-- `map_to_gpu` preserves the byte accounting. -/
theorem map_to_gpu_bytesInv (s : VMState) (vaddr : Nat) (h : bytesInv s) :
    bytesInv (vmm_map_to_gpu s vaddr) := by
  unfold vmm_map_to_gpu
  dsimp only
  split
  · exact h
  · split
    · exact h
    · exact device_fault_body_bytesInv _ _ _ h

/-- `touch_page` preserves the byte accounting. -/
theorem touch_bytesInv (s : VMState) (vaddr : Nat) (w : Bool) (h : bytesInv s) :
    bytesInv (vmm_touch_page s vaddr w) := by
  unfold vmm_touch_page
  dsimp only
  have hres : bytesInv (resolve_page_fault
      { s with counters :=
          { s.counters with total_page_faults := s.counters.total_page_faults + 1 } }
      (vaddr / s.page_size) false) :=
    resolve_bytesInv _ _ _ h
  cases hl : lookup_entry s.page_table (vaddr / s.page_size) with
  | none =>
    dsimp only
    split
    · exact hres
    · exact hres
  | some e0 =>
    dsimp only
    exact h

/-- `read_from_vaddr` preserves the byte accounting. -/
theorem read_bytesInv (s : VMState) (vaddr buf : Nat) (h : bytesInv s) :
    bytesInv (vmm_read s vaddr buf) := by
  unfold vmm_read
  dsimp only
  have hres : bytesInv (resolve_page_fault s (vaddr / s.page_size) false) :=
    resolve_bytesInv _ _ _ h
  split
  · exact h
  · cases hl : lookup_entry s.page_table (vaddr / s.page_size) with
    | none => exact h
    | some e0 =>
      dsimp only
      by_cases hr : e0.resident_on_cpu = false
      · rw [if_pos hr]
        dsimp only
        split
        · exact hres
        · split
          · exact hres
          · exact hres
      · rw [if_neg hr]
        dsimp only
        split
        · exact h
        · exact h

/-- `write_to_vaddr` preserves the byte accounting. -/
theorem write_bytesInv (s : VMState) (vaddr buf : Nat) (h : bytesInv s) :
    bytesInv (vmm_write s vaddr buf) := by
  unfold vmm_write
  dsimp only
  have hres : bytesInv (resolve_page_fault s (vaddr / s.page_size) false) :=
    resolve_bytesInv _ _ _ h
  split
  · exact h
  · cases hl : lookup_entry s.page_table (vaddr / s.page_size) with
    | none => exact h
    | some e0 =>
      dsimp only
      by_cases hr : e0.resident_on_cpu = false
      · rw [if_pos hr]
        dsimp only
        split
        · exact hres
        · split
          · exact hres
          · exact hres
      · rw [if_neg hr]
        dsimp only
        split
        · exact h
        · exact h

/-- The prefetch loop of `allocate` preserves the byte accounting. -/
theorem prefetch_loop_bytesInv (pages : List Nat) (vs : Nat) :
    ∀ (i n : Nat) (s : VMState), bytesInv s →
      bytesInv (prefetch_loop pages vs i n s) := by
  intro i n
  induction n generalizing i with
  | zero => intro s h; exact h
  | succ n ih =>
    intro s h
    unfold prefetch_loop
    dsimp only
    split
    · exact ih (i + 1) _ h
    · refine ih (i + 1) _ ?_
      unfold bytesInv at h ⊢
      simp only [chargeC2G]
      rw [h]; ring

/-- The per-VPN loop of `free` preserves the byte accounting (it never
touches counters or the page size). -/
theorem free_loop_bytesInv (start : Nat) :
    ∀ (i n : Nat) (s : VMState), bytesInv s → bytesInv (free_loop start i n s) := by
  intro i n
  induction n generalizing i with
  | zero => intro s h; exact h
  | succ n ih => intro s h; exact ih (i + 1) _ h

/-- `free` preserves the byte accounting. -/
theorem free_bytesInv (s : VMState) (vaddr : Nat) (h : bytesInv s) :
    bytesInv (vmm_free s vaddr) := by
  unfold vmm_free
  split
  · exact h
  · exact free_loop_bytesInv _ _ _ _ h

/-- `allocate` preserves the byte accounting on all three of its
paths. -/
theorem allocate_bytesInv (s : VMState) (bytes : Nat) (pre : Bool) (h : bytesInv s) :
    bytesInv (vmm_allocate s bytes pre).1 := by
  unfold vmm_allocate
  dsimp only
  split
  · exact h
  · split
    · exact h
    · split
      · exact prefetch_loop_bytesInv _ _ _ _ _ h
      · exact h

/-- Every façade call preserves the byte accounting. -/
theorem vmm_step_bytesInv (s : VMState) (op : VMOp) (h : bytesInv s) :
    bytesInv (vmm_step s op) := by
  cases op with
  | alloc bytes pre => exact allocate_bytesInv s bytes pre h
  | free vaddr => exact free_bytesInv s vaddr h
  | mapToCpu vaddr => exact map_to_cpu_bytesInv s vaddr h
  | mapToGpu vaddr => exact map_to_gpu_bytesInv s vaddr h
  | prefetchToGpu vaddr => exact map_to_gpu_bytesInv s vaddr h
  | touch vaddr w => exact touch_bytesInv s vaddr w h
  | read vaddr buf => exact read_bytesInv s vaddr buf h
  | write vaddr buf => exact write_bytesInv s vaddr buf h

/-! ## C8 — bytes_migrated = page_size × (migration count) -/

/-- C8: along any sequence of façade calls (allocation with or without
prefetch, free, the mapping and prefetch calls, touch, read, write —
these drive fault resolution and eviction internally), at every point
of the run the byte counter equals the page size times the sum of the
two directional migration counters, provided it does at the start. -/
theorem bytes_migrated_invariant (s : VMState) (ops : List VMOp)
    (h : bytesInv s) (n : Nat) :
    bytesInv (vmm_run s (ops.take n)) := by
  have main : ∀ (l : List VMOp) (st : VMState), bytesInv st → bytesInv (vmm_run st l) := by
    intro l
    induction l with
    | nil => intro st hst; exact hst
    | cons op t ih =>
      intro st hst
      exact ih (vmm_step st op) (vmm_step_bytesInv st op hst)
  exact main (ops.take n) s h

/-- C8 witness: a concrete run — write-touch, device map and a
prefetching allocation on the one-page state — keeps the accounting at
every prefix length. -/
theorem bytes_migrated_invariant_witness :
    bytesInv (vmm_run stateDeviceExhausted
      ([VMOp.touch 0 true, VMOp.mapToGpu 0, VMOp.alloc 16 true].take 3)) :=
  bytes_migrated_invariant stateDeviceExhausted
    [VMOp.touch 0 true, VMOp.mapToGpu 0, VMOp.alloc 16 true]
    (by unfold bytesInv; decide) 3

/-! ## C10 toolkit: host residency is never cleared -/

/-- `hostKeepPT` is reflexive. -/
theorem hostKeepPT_refl (pt : PT) (v : Nat) : hostKeepPT pt pt v :=
  fun e he hr => ⟨e, he, hr, rfl⟩

/-- `hostKeepPT` composes. -/
theorem hostKeepPT_trans (pt1 pt2 pt3 : PT) (v : Nat)
    (h1 : hostKeepPT pt1 pt2 v) (h2 : hostKeepPT pt2 pt3 v) :
    hostKeepPT pt1 pt3 v := by
  intro e he hr
  obtain ⟨e2, he2, hr2, ha2⟩ := h1 e he hr
  obtain ⟨e3, he3, hr3, ha3⟩ := h2 e2 he2 hr2
  exact ⟨e3, he3, hr3, ha3.trans ha2⟩

/-- A pointer write whose function keeps host residency and the host
address of host-resident entries satisfies the transfer relation. -/
theorem hostKeepPT_update (pt : PT) (k : Nat) (f : PageTableEntry → PageTableEntry)
    (v : Nat)
    (hf : ∀ e, e.resident_on_cpu = true →
      (f e).resident_on_cpu = true ∧ (f e).cpu_address = e.cpu_address) :
    hostKeepPT pt (pt_update pt k f) v := by
  intro e he hr
  rw [lookup_entry_pt_update]
  by_cases hv : v = k
  · rw [if_pos hv, he]
    exact ⟨f e, rfl, (hf e hr).1, (hf e hr).2⟩
  · rw [if_neg hv]
    exact ⟨e, he, hr, rfl⟩

/-- A host→device migration never touches host residency. -/
theorem hostKeepPT_migrate_c2g (pt : PT) (now vpn ca ga v : Nat) :
    hostKeepPT pt (migrate_cpu_to_gpu pt now vpn ca ga).1 v := by
  unfold migrate_cpu_to_gpu
  split
  · exact hostKeepPT_refl pt v
  · split
    · exact hostKeepPT_refl pt v
    · dsimp only
      exact hostKeepPT_update pt vpn _ v (fun e hr => ⟨hr, rfl⟩)

/-- A device→host migration whose host pointer is read from the live
entry keeps host residency and the host address. -/
theorem hostKeepPT_migrate_g2c (pt : PT) (now vpn ga : Nat) (e1 : PageTableEntry)
    (he1 : lookup_entry pt vpn = some e1) (v : Nat) :
    hostKeepPT pt (migrate_gpu_to_cpu pt now vpn ga e1.cpu_address).1 v := by
  unfold migrate_gpu_to_cpu
  split
  · exact hostKeepPT_refl pt v
  · split
    · exact hostKeepPT_refl pt v
    · dsimp only
      split
      · intro e he hr
        rw [lookup_entry_pt_update]
        by_cases hv : v = vpn
        · rw [if_pos hv]
          rw [hv] at he
          rw [he1] at he
          cases he
          rw [hv, he1]
          exact ⟨_, rfl, rfl, rfl⟩
        · rw [if_neg hv]
          exact ⟨e, he, hr, rfl⟩
      · exact hostKeepPT_refl pt v

/-- A successful lookup pins a member of the table. -/
theorem lookup_mem (pt : PT) (v : Nat) (e : PageTableEntry)
    (h : lookup_entry pt v = some e) : (v, e) ∈ pt := by
  induction pt with
  | nil => exact Option.noConfusion h
  | cons p t ih =>
    by_cases hp : p.1 = v
    · rw [show lookup_entry (p :: t) v = some p.2 from by
        simp [lookup_entry, hp]] at h
      cases h
      rw [show ((v, p.2) : Nat × PageTableEntry) = p from Prod.ext hp.symm rfl]
      exact List.mem_cons_self p t
    · rw [show lookup_entry (p :: t) v = lookup_entry t v from by
        simp [lookup_entry, hp]] at h
      exact List.mem_cons_of_mem p (ih h)

/-- Filtering with a predicate that keeps every pair at key `v` does
not change the lookup at `v`. -/
theorem lookup_entry_filter (pt : PT) (P : Nat × PageTableEntry → Bool) (v : Nat)
    (hv : ∀ e, P (v, e) = true) :
    lookup_entry (pt.filter P) v = lookup_entry pt v := by
  induction pt with
  | nil => rfl
  | cons p t ih =>
    by_cases hp : p.1 = v
    · have hPp : P p = true := by
        rw [show p = (v, p.2) from Prod.ext hp rfl]
        exact hv p.2
      rw [List.filter_cons_of_pos hPp]
      simp [lookup_entry, hp]
    · cases hP : P p
      · rw [List.filter_cons_of_neg (by simp [hP])]
        rw [ih, show lookup_entry (p :: t) v = lookup_entry t v from by
          simp [lookup_entry, hp]]
      · rw [List.filter_cons_of_pos hP]
        rw [show lookup_entry (p :: t.filter P) v = lookup_entry (t.filter P) v from by
          simp [lookup_entry, hp]]
        rw [ih, show lookup_entry (p :: t) v = lookup_entry t v from by
          simp [lookup_entry, hp]]

/-- Eviction never clears host residency or the host address. -/
theorem evict_hostKeep (s : VMState) (v : Nat) :
    hostKeepPT s.page_table (evict_page_from_gpu s).page_table v := by
  unfold evict_page_from_gpu
  cases hl : s.ledger with
  | nil => exact hostKeepPT_refl _ _
  | cons hd tl =>
    rcases hsel : select_victim s.policy with ⟨v0, pol1⟩
    dsimp only
    generalize (if v0 = 0 then hd else v0) = victim
    split
    · exact hostKeepPT_refl _ _
    · cases hlook : lookup_entry s.page_table victim with
      | none =>
        dsimp only
        exact hostKeepPT_refl _ _
      | some e =>
        dsimp only
        split
        · refine hostKeepPT_trans _ _ _ v
            (hostKeepPT_migrate_g2c s.page_table s.now victim e.gpu_address e hlook v) ?_
          refine hostKeepPT_update _ victim _ v ?_
          exact fun e2 hr => ⟨hr, rfl⟩
        · refine hostKeepPT_update _ victim _ v ?_
          exact fun e2 hr => ⟨hr, rfl⟩

/-- The tail of the device-target fault keeps host residency. -/
theorem device_fault_finish_hostKeep (s1 : VMState) (vpn v : Nat) :
    hostKeepPT s1.page_table (device_fault_finish s1 vpn).page_table v := by
  unfold device_fault_finish
  cases hlook : lookup_entry s1.page_table vpn with
  | none => exact hostKeepPT_refl _ _
  | some e1 =>
    dsimp only
    split
    · refine hostKeepPT_trans _ _ _ v
        (hostKeepPT_migrate_c2g s1.page_table s1.now vpn e1.cpu_address e1.gpu_address v) ?_
      refine hostKeepPT_update _ vpn _ v ?_
      exact fun e2 hr => ⟨hr, rfl⟩
    · refine hostKeepPT_update _ vpn _ v ?_
      exact fun e2 hr => ⟨hr, rfl⟩


/-- Composition helper: extend a `hostKeepPT` chain by a flag-only update. -/
theorem hostKeepPT_update_comp (pt0 pt1 : PT) (vpn : Nat)
    (f : PageTableEntry → PageTableEntry) (v : Nat)
    (hf : ∀ e, e.resident_on_cpu = true →
      (f e).resident_on_cpu = true ∧ (f e).cpu_address = e.cpu_address)
    (h : hostKeepPT pt0 pt1 v) :
    hostKeepPT pt0 (pt_update pt1 vpn f) v :=
  hostKeepPT_trans _ _ _ v h (hostKeepPT_update pt1 vpn f v hf)

/-- Composition helper: extend a `hostKeepPT` chain through eviction. -/
theorem hostKeepPT_evict_comp (pt0 : PT) (sx : VMState) (v : Nat)
    (h : hostKeepPT pt0 sx.page_table v) :
    hostKeepPT pt0 (evict_page_from_gpu sx).page_table v :=
  hostKeepPT_trans _ _ _ v h (evict_hostKeep sx v)

/-- Composition helper: extend a `hostKeepPT` chain through the
device-target fault tail. -/
theorem hostKeepPT_dfinish_comp (pt0 : PT) (sx : VMState) (vpn v : Nat)
    (h : hostKeepPT pt0 sx.page_table v) :
    hostKeepPT pt0 (device_fault_finish sx vpn).page_table v :=
  hostKeepPT_trans _ _ _ v h (device_fault_finish_hostKeep sx vpn v)

/-- The whole device-target fault body keeps host residency. -/
theorem device_fault_body_hostKeep (s : VMState) (vpn : Nat) (e0 : PageTableEntry)
    (v : Nat) :
    hostKeepPT s.page_table (device_fault_body s vpn e0).page_table v := by
  unfold device_fault_body
  by_cases hg : e0.gpu_address = 0
  · rw [if_pos hg]
    dsimp only
    by_cases hz : (allocate_gpu_page s.alloc).2 = 0
    · rw [if_pos hz]
      apply hostKeepPT_dfinish_comp
      dsimp only
      refine hostKeepPT_update_comp _ _ _ _ v ?_ ?_
      · exact fun e2 hr => ⟨hr, rfl⟩
      apply hostKeepPT_evict_comp
      dsimp only
      refine hostKeepPT_update s.page_table vpn _ v ?_
      exact fun e2 hr => ⟨hr, rfl⟩
    · rw [if_neg hz]
      apply hostKeepPT_dfinish_comp
      dsimp only
      refine hostKeepPT_update s.page_table vpn _ v ?_
      exact fun e2 hr => ⟨hr, rfl⟩
  · rw [if_neg hg]
    exact device_fault_finish_hostKeep s vpn v

/-- The tail of the host-target fault keeps host residency (it only
sets the flag, with the host pointer read from the live entry). -/
theorem host_fault_finish_hostKeep (s1 : VMState) (vpn v : Nat) :
    hostKeepPT s1.page_table (host_fault_finish s1 vpn).page_table v := by
  unfold host_fault_finish
  cases hlook : lookup_entry s1.page_table vpn with
  | none => exact hostKeepPT_refl _ _
  | some e1 =>
    dsimp only
    split
    · refine hostKeepPT_trans _ _ _ v
        (hostKeepPT_migrate_g2c s1.page_table s1.now vpn e1.gpu_address e1 hlook v) ?_
      refine hostKeepPT_update _ vpn _ v ?_
      exact fun e2 _ => ⟨rfl, rfl⟩
    · refine hostKeepPT_update _ vpn _ v ?_
      exact fun e2 _ => ⟨rfl, rfl⟩

/-- The host-target fault body keeps host residency; it is only entered
for an entry that is not host-resident, so its host-pointer store
cannot hit a host-resident page. -/
theorem host_fault_body_hostKeep (s : VMState) (vpn : Nat) (e0 : PageTableEntry)
    (v : Nat) (he0 : lookup_entry s.page_table vpn = some e0)
    (hres : e0.resident_on_cpu = false) :
    hostKeepPT s.page_table (host_fault_body s vpn e0).page_table v := by
  unfold host_fault_body
  by_cases hc : e0.cpu_address = 0
  · rw [if_pos hc]
    refine hostKeepPT_trans _ _ _ v ?_ (host_fault_finish_hostKeep _ vpn v)
    dsimp only
    intro e he hr
    by_cases hv : v = vpn
    · rw [hv] at he
      rw [he0] at he
      cases he
      rw [hres] at hr
      exact Bool.noConfusion hr
    · rw [lookup_entry_pt_update, if_neg hv]
      exact ⟨e, he, hr, rfl⟩
  · rw [if_neg hc]
    exact host_fault_finish_hostKeep s vpn v

/-- Fault resolution keeps host residency. -/
theorem resolve_hostKeep (s : VMState) (vpn : Nat) (g : Bool) (v : Nat) :
    hostKeepPT s.page_table (resolve_page_fault s vpn g).page_table v := by
  unfold resolve_page_fault
  cases hlook : lookup_entry s.page_table vpn with
  | none => exact hostKeepPT_refl _ _
  | some e0 =>
    dsimp only
    cases g with
    | true =>
      rw [if_pos rfl]
      split
      · exact hostKeepPT_refl _ _
      · exact device_fault_body_hostKeep s vpn e0 v
    | false =>
      rw [if_neg (by exact Bool.noConfusion)]
      split
      · exact hostKeepPT_refl _ _
      · rename_i hguard
        exact host_fault_body_hostKeep s vpn e0 v hlook
          (by cases he : e0.resident_on_cpu
              · rfl
              · exact absurd he hguard)

/-- Composition helper: extend a `hostKeepPT` chain through fault
resolution. -/
theorem hostKeepPT_resolve_comp (pt0 : PT) (sx : VMState) (vpn : Nat) (g : Bool)
    (v : Nat) (h : hostKeepPT pt0 sx.page_table v) :
    hostKeepPT pt0 (resolve_page_fault sx vpn g).page_table v :=
  hostKeepPT_trans _ _ _ v h (resolve_hostKeep sx vpn g v)

/-- `map_to_cpu` keeps host residency. -/
theorem map_to_cpu_hostKeep (s : VMState) (vaddr : Nat) (v : Nat) :
    hostKeepPT s.page_table (vmm_map_to_cpu s vaddr).page_table v := by
  unfold vmm_map_to_cpu
  dsimp only
  split
  · exact hostKeepPT_refl _ _
  · split
    · exact resolve_hostKeep _ _ _ v
    · exact hostKeepPT_refl _ _

/-- `map_to_gpu` keeps host residency. -/
theorem map_to_gpu_hostKeep (s : VMState) (vaddr : Nat) (v : Nat) :
    hostKeepPT s.page_table (vmm_map_to_gpu s vaddr).page_table v := by
  unfold vmm_map_to_gpu
  dsimp only
  split
  · exact hostKeepPT_refl _ _
  · split
    · exact hostKeepPT_refl _ _
    · exact device_fault_body_hostKeep _ _ _ v

/-- `touch_page` keeps host residency. -/
theorem touch_hostKeep (s : VMState) (vaddr : Nat) (w : Bool) (v : Nat) :
    hostKeepPT s.page_table (vmm_touch_page s vaddr w).page_table v := by
  unfold vmm_touch_page
  dsimp only
  cases hl : lookup_entry s.page_table (vaddr / s.page_size) with
  | none =>
    dsimp only
    split
    · apply hostKeepPT_resolve_comp
      exact hostKeepPT_refl _ _
    · dsimp only
      refine hostKeepPT_update_comp _ _ _ _ v ?_ ?_
      · exact fun e2 hr => ⟨hr, rfl⟩
      · apply hostKeepPT_resolve_comp
        exact hostKeepPT_refl _ _
  | some e0 =>
    dsimp only
    refine hostKeepPT_update_comp _ _ _ _ v ?_ ?_
    · exact fun e2 hr => ⟨hr, rfl⟩
    · exact hostKeepPT_refl _ _

/-- `read_from_vaddr` keeps host residency. -/
theorem read_hostKeep (s : VMState) (vaddr buf : Nat) (v : Nat) :
    hostKeepPT s.page_table (vmm_read s vaddr buf).page_table v := by
  unfold vmm_read
  split
  · exact hostKeepPT_refl _ _
  · dsimp only
    cases hl : lookup_entry s.page_table (vaddr / s.page_size) with
    | none => exact hostKeepPT_refl _ _
    | some e0 =>
      dsimp only
      by_cases hr0 : e0.resident_on_cpu = false
      · rw [if_pos hr0]
        dsimp only
        split
        · apply hostKeepPT_resolve_comp
          exact hostKeepPT_refl _ _
        · split
          · dsimp only
            refine hostKeepPT_update_comp _ _ _ _ v ?_ ?_
            · exact fun e2 hr => ⟨hr, rfl⟩
            · apply hostKeepPT_resolve_comp
              exact hostKeepPT_refl _ _
          · apply hostKeepPT_resolve_comp
            exact hostKeepPT_refl _ _
      · rw [if_neg hr0]
        dsimp only
        split
        · dsimp only
          refine hostKeepPT_update_comp _ _ _ _ v ?_ ?_
          · exact fun e2 hr => ⟨hr, rfl⟩
          · exact hostKeepPT_refl _ _
        · exact hostKeepPT_refl _ _

/-- `write_to_vaddr` keeps host residency. -/
theorem write_hostKeep (s : VMState) (vaddr buf : Nat) (v : Nat) :
    hostKeepPT s.page_table (vmm_write s vaddr buf).page_table v := by
  unfold vmm_write
  split
  · exact hostKeepPT_refl _ _
  · dsimp only
    cases hl : lookup_entry s.page_table (vaddr / s.page_size) with
    | none => exact hostKeepPT_refl _ _
    | some e0 =>
      dsimp only
      by_cases hr0 : e0.resident_on_cpu = false
      · rw [if_pos hr0]
        dsimp only
        split
        · apply hostKeepPT_resolve_comp
          exact hostKeepPT_refl _ _
        · split
          · dsimp only
            refine hostKeepPT_update_comp _ _ _ _ v ?_ ?_
            · exact fun e2 hr => ⟨hr, rfl⟩
            · apply hostKeepPT_resolve_comp
              exact hostKeepPT_refl _ _
          · apply hostKeepPT_resolve_comp
            exact hostKeepPT_refl _ _
      · rw [if_neg hr0]
        dsimp only
        split
        · dsimp only
          refine hostKeepPT_update_comp _ _ _ _ v ?_ ?_
          · exact fun e2 hr => ⟨hr, rfl⟩
          · exact hostKeepPT_refl _ _
        · exact hostKeepPT_refl _ _

/-- Any range reservation (successful or not) only appends entries. -/
theorem alloc_range_isAppend (pt : PT) (v n : Nat) :
    ∃ q, (alloc_range pt v n).1 = pt ++ q := by
  induction n generalizing pt v with
  | zero => exact ⟨[], by simp [alloc_range]⟩
  | succ n ih =>
    by_cases hv : (lookup_entry pt v).isSome
    · refine ⟨[], ?_⟩
      rw [show alloc_range pt v (n + 1) = (pt, false) from by
        unfold alloc_range; rw [if_pos hv]]
      simp
    · have hstep : alloc_range pt v (n + 1) =
          alloc_range (pt ++ [(v, { PageTableEntry.init with is_valid := true })]) (v + 1) n := by
        conv_lhs => rw [alloc_range]
        rw [if_neg hv]
      obtain ⟨q, hq⟩ := ih (pt ++ [(v, { PageTableEntry.init with is_valid := true })]) (v + 1)
      rw [hstep, hq, List.append_assoc]
      exact ⟨_, rfl⟩

/-- Appending entries never disturbs an existing binding. -/
theorem hostKeepPT_append (pt q : PT) (v : Nat) : hostKeepPT pt (pt ++ q) v := by
  intro e he hr
  refine ⟨e, ?_, hr, rfl⟩
  rw [lookup_entry_append, he]

/-- The host-slot loop leaves lookups outside its VPN range unchanged,
on both the successful and the failing run. -/
theorem host_loop_lookup_outside (now v : Nat) :
    ∀ (n vpn : Nat) (a : PageAllocator) (pt : PT) (pol : Policy)
      (af : PageAllocator) (ptf : PT) (polf : Policy) (ps : List Nat),
      (∀ i, i < n → vpn + i ≠ v) →
      (host_alloc_loop now vpn n a pt pol = .fail af ptf polf ps ∨
       host_alloc_loop now vpn n a pt pol = .ok af ptf polf ps) →
      lookup_entry ptf v = lookup_entry pt v := by
  intro n
  induction n with
  | zero =>
    intro vpn a pt pol af ptf polf ps _ hrun
    rcases hrun with h | h
    · exact HostLoop.noConfusion h
    · cases h
      rfl
  | succ n ih =>
    intro vpn a pt pol af ptf polf ps hP hrun
    have h0 : vpn + 0 ≠ v := hP 0 (by omega)
    have hne : ¬(v = vpn) := fun h => h0 (by omega)
    unfold host_alloc_loop at hrun
    rcases hr : allocate_cpu_page a with ⟨a1, pv⟩
    rw [hr] at hrun
    dsimp only at hrun
    by_cases hz : pv = 0
    · rw [if_pos hz] at hrun
      rcases hrun with h | h
      · cases h
        rfl
      · exact HostLoop.noConfusion h
    · rw [if_neg hz] at hrun
      cases hrec : host_alloc_loop now (vpn + 1) n a1
          (update_access_time (set_cpu_resident pt vpn pv now) vpn now)
          (on_page_allocated pol vpn) with
      | ok a2 pt2 pol2 ps2 =>
        rw [hrec] at hrun
        rcases hrun with h | h
        · exact HostLoop.noConfusion h
        · cases h
          have hrest := ih (vpn + 1) a1 _ _ af ptf polf ps2
            (fun i hi => by
              rw [show vpn + 1 + i = vpn + (i + 1) from by omega]
              exact hP (i + 1) (by omega)) (Or.inr hrec)
          rw [hrest]
          unfold update_access_time set_cpu_resident
          rw [lookup_entry_pt_update, if_neg hne, lookup_entry_pt_update, if_neg hne]
      | fail a2 pt2 pol2 ps2 =>
        rw [hrec] at hrun
        rcases hrun with h | h
        · cases h
          have hrest := ih (vpn + 1) a1 _ _ af ptf polf ps2
            (fun i hi => by
              rw [show vpn + 1 + i = vpn + (i + 1) from by omega]
              exact hP (i + 1) (by omega)) (Or.inl hrec)
          rw [hrest]
          unfold update_access_time set_cpu_resident
          rw [lookup_entry_pt_update, if_neg hne, lookup_entry_pt_update, if_neg hne]
        · exact HostLoop.noConfusion h

/-- Composition helper: extend a `hostKeepPT` chain through a counted
host-to-device migration. -/
theorem hostKeepPT_migrate_c2g_comp (pt0 pt1 : PT) (now vpn ca ga v : Nat)
    (h : hostKeepPT pt0 pt1 v) :
    hostKeepPT pt0 (migrate_cpu_to_gpu pt1 now vpn ca ga).1 v :=
  hostKeepPT_trans _ _ _ v h (hostKeepPT_migrate_c2g pt1 now vpn ca ga v)

/-- The prefetch loop keeps host residency. -/
theorem prefetch_loop_hostKeep (pages : List Nat) (vs v : Nat) :
    ∀ (n i : Nat) (s : VMState),
      hostKeepPT s.page_table (prefetch_loop pages vs i n s).page_table v := by
  intro n
  induction n with
  | zero => exact fun i s => hostKeepPT_refl _ _
  | succ n ih =>
    intro i s
    unfold prefetch_loop
    dsimp only
    by_cases hz : (allocate_gpu_page s.alloc).2 = 0
    · rw [if_pos hz]
      exact ih (i + 1) { s with alloc := (allocate_gpu_page s.alloc).1 }
    · rw [if_neg hz]
      refine hostKeepPT_trans _ _ _ v ?_ (ih (i + 1) _)
      dsimp only
      apply hostKeepPT_migrate_c2g_comp
      unfold set_gpu_resident
      refine hostKeepPT_update _ _ _ v ?_
      exact fun e2 hr => ⟨hr, rfl⟩

/-- `allocate` keeps host residency for every VPN below the issue
counter (reachable states only hold such VPNs). -/
theorem allocate_hostKeep (s : VMState) (bytes : Nat) (pre : Bool) (v : Nat)
    (hv : v < s.next_vpn) :
    hostKeepPT s.page_table (vmm_allocate s bytes pre).1.page_table v := by
  unfold vmm_allocate
  dsimp only
  split
  · dsimp only
    obtain ⟨q, hq⟩ :=
      alloc_range_isAppend s.page_table s.next_vpn (align_to_page bytes s.page_size / s.page_size)
    rw [hq]
    exact hostKeepPT_append _ _ v
  · obtain ⟨q, hq⟩ :=
      alloc_range_isAppend s.page_table s.next_vpn (align_to_page bytes s.page_size / s.page_size)
    cases hrun : host_alloc_loop s.now s.next_vpn (align_to_page bytes s.page_size / s.page_size)
        s.alloc (alloc_range s.page_table s.next_vpn (align_to_page bytes s.page_size / s.page_size)).1
        s.policy with
    | fail a1 pt2 pol1 ps =>
      dsimp only
      intro e he hr
      refine ⟨e, ?_, hr, rfl⟩
      rw [dealloc_range_eq_filter]
      rw [show lookup_entry
            (List.filter (fun p => decide (p.1 < s.next_vpn ∨
              s.next_vpn + align_to_page bytes s.page_size / s.page_size ≤ p.1)) pt2) v =
          lookup_entry pt2 v from
        lookup_entry_filter pt2 _ v (fun e2 => decide_eq_true (Or.inl hv))]
      rw [host_loop_lookup_outside s.now v _ s.next_vpn s.alloc _ s.policy a1 pt2 pol1 ps
        (fun i hi => by omega) (Or.inl hrun)]
      rw [hq, lookup_entry_append, he]
    | ok a1 pt2 pol1 pages =>
      have hkeep2 : hostKeepPT s.page_table pt2 v := by
        intro e he hr
        refine ⟨e, ?_, hr, rfl⟩
        rw [host_loop_lookup_outside s.now v _ s.next_vpn s.alloc _ s.policy a1 pt2 pol1 pages
          (fun i hi => by omega) (Or.inr hrun)]
        rw [hq, lookup_entry_append, he]
      dsimp only
      split
      · refine hostKeepPT_trans _ _ _ v hkeep2 ?_
        exact prefetch_loop_hostKeep pages s.next_vpn v
          (align_to_page bytes s.page_size / s.page_size) 0
          { s with alloc := a1, page_table := pt2, policy := pol1 }
      · exact hkeep2

/-- Eviction does not move the VPN issue counter. -/
theorem evict_next_vpn (s : VMState) :
    (evict_page_from_gpu s).next_vpn = s.next_vpn := by
  unfold evict_page_from_gpu
  cases hl : s.ledger with
  | nil => rfl
  | cons hd tl =>
    rcases hsel : select_victim s.policy with ⟨v0, pol1⟩
    dsimp only
    generalize (if v0 = 0 then hd else v0) = victim
    split
    · rfl
    · cases hlook : lookup_entry s.page_table victim with
      | none => rfl
      | some e =>
        dsimp only
        split <;> rfl

/-- The device-target fault tail does not move the VPN issue counter. -/
theorem device_fault_finish_next (s1 : VMState) (vpn : Nat) :
    (device_fault_finish s1 vpn).next_vpn = s1.next_vpn := by
  unfold device_fault_finish
  cases hlook : lookup_entry s1.page_table vpn with
  | none => rfl
  | some e1 =>
    dsimp only
    split <;> rfl

/-- The device-target fault body does not move the VPN issue counter. -/
theorem device_fault_body_next (s : VMState) (vpn : Nat) (e0 : PageTableEntry) :
    (device_fault_body s vpn e0).next_vpn = s.next_vpn := by
  unfold device_fault_body
  by_cases hg : e0.gpu_address = 0
  · rw [if_pos hg]
    dsimp only
    by_cases hz : (allocate_gpu_page s.alloc).2 = 0
    · rw [if_pos hz]
      rw [device_fault_finish_next]
      dsimp only
      rw [evict_next_vpn]
    · rw [if_neg hz]
      rw [device_fault_finish_next]
  · rw [if_neg hg]
    rw [device_fault_finish_next]

/-- The host-target fault tail does not move the VPN issue counter. -/
theorem host_fault_finish_next (s1 : VMState) (vpn : Nat) :
    (host_fault_finish s1 vpn).next_vpn = s1.next_vpn := by
  unfold host_fault_finish
  cases hlook : lookup_entry s1.page_table vpn with
  | none => rfl
  | some e1 =>
    dsimp only
    split <;> rfl

/-- The host-target fault body does not move the VPN issue counter. -/
theorem host_fault_body_next (s : VMState) (vpn : Nat) (e0 : PageTableEntry) :
    (host_fault_body s vpn e0).next_vpn = s.next_vpn := by
  unfold host_fault_body
  by_cases hc : e0.cpu_address = 0
  · rw [if_pos hc]
    rw [host_fault_finish_next]
  · rw [if_neg hc]
    rw [host_fault_finish_next]

/-- Fault resolution does not move the VPN issue counter. -/
theorem resolve_next (s : VMState) (vpn : Nat) (g : Bool) :
    (resolve_page_fault s vpn g).next_vpn = s.next_vpn := by
  unfold resolve_page_fault
  cases hlook : lookup_entry s.page_table vpn with
  | none => rfl
  | some e0 =>
    dsimp only
    cases g with
    | true =>
      rw [if_pos rfl]
      split
      · rfl
      · exact device_fault_body_next s vpn e0
    | false =>
      rw [if_neg (by exact Bool.noConfusion)]
      split
      · rfl
      · exact host_fault_body_next s vpn e0

/-- `map_to_cpu` does not move the VPN issue counter. -/
theorem map_to_cpu_next (s : VMState) (vaddr : Nat) :
    (vmm_map_to_cpu s vaddr).next_vpn = s.next_vpn := by
  unfold vmm_map_to_cpu
  dsimp only
  split
  · rfl
  · split
    · exact resolve_next _ _ _
    · rfl

/-- `map_to_gpu` does not move the VPN issue counter. -/
theorem map_to_gpu_next (s : VMState) (vaddr : Nat) :
    (vmm_map_to_gpu s vaddr).next_vpn = s.next_vpn := by
  unfold vmm_map_to_gpu
  dsimp only
  split
  · rfl
  · split
    · rfl
    · exact device_fault_body_next _ _ _

/-- `touch_page` does not move the VPN issue counter. -/
theorem touch_next (s : VMState) (vaddr : Nat) (w : Bool) :
    (vmm_touch_page s vaddr w).next_vpn = s.next_vpn := by
  unfold vmm_touch_page
  dsimp only
  cases hl : lookup_entry s.page_table (vaddr / s.page_size) with
  | none =>
    dsimp only
    split
    · exact resolve_next _ _ _
    · dsimp only
      exact resolve_next _ _ _
  | some e0 => rfl

/-- `read_from_vaddr` does not move the VPN issue counter. -/
theorem read_next (s : VMState) (vaddr buf : Nat) :
    (vmm_read s vaddr buf).next_vpn = s.next_vpn := by
  unfold vmm_read
  split
  · rfl
  · dsimp only
    cases hl : lookup_entry s.page_table (vaddr / s.page_size) with
    | none => rfl
    | some e0 =>
      dsimp only
      by_cases hr0 : e0.resident_on_cpu = false
      · rw [if_pos hr0]
        dsimp only
        split
        · exact resolve_next _ _ _
        · split
          · dsimp only
            exact resolve_next _ _ _
          · exact resolve_next _ _ _
      · rw [if_neg hr0]
        dsimp only
        split
        · rfl
        · rfl

/-- `write_to_vaddr` does not move the VPN issue counter. -/
theorem write_next (s : VMState) (vaddr buf : Nat) :
    (vmm_write s vaddr buf).next_vpn = s.next_vpn := by
  unfold vmm_write
  split
  · rfl
  · dsimp only
    cases hl : lookup_entry s.page_table (vaddr / s.page_size) with
    | none => rfl
    | some e0 =>
      dsimp only
      by_cases hr0 : e0.resident_on_cpu = false
      · rw [if_pos hr0]
        dsimp only
        split
        · exact resolve_next _ _ _
        · split
          · dsimp only
            exact resolve_next _ _ _
          · exact resolve_next _ _ _
      · rw [if_neg hr0]
        dsimp only
        split
        · rfl
        · rfl

/-- The prefetch loop does not move the VPN issue counter. -/
theorem prefetch_loop_next (pages : List Nat) (vs : Nat) :
    ∀ (n i : Nat) (s : VMState),
      (prefetch_loop pages vs i n s).next_vpn = s.next_vpn := by
  intro n
  induction n with
  | zero => exact fun i s => rfl
  | succ n ih =>
    intro i s
    unfold prefetch_loop
    dsimp only
    by_cases hz : (allocate_gpu_page s.alloc).2 = 0
    · rw [if_pos hz]
      exact ih (i + 1) { s with alloc := (allocate_gpu_page s.alloc).1 }
    · rw [if_neg hz]
      rw [ih]

/-- `allocate` never lowers the VPN issue counter. -/
theorem allocate_next_le (s : VMState) (bytes : Nat) (pre : Bool) :
    s.next_vpn ≤ (vmm_allocate s bytes pre).1.next_vpn := by
  unfold vmm_allocate
  dsimp only
  split
  · exact Nat.le_refl _
  · cases hrun : host_alloc_loop s.now s.next_vpn (align_to_page bytes s.page_size / s.page_size)
        s.alloc (alloc_range s.page_table s.next_vpn (align_to_page bytes s.page_size / s.page_size)).1
        s.policy with
    | fail a1 pt2 pol1 ps => exact Nat.le_refl _
    | ok a1 pt2 pol1 pages =>
      dsimp only
      split
      · rw [prefetch_loop_next]
        exact Nat.le_add_right _ _
      · exact Nat.le_add_right _ _

/-- One non-`free` façade call keeps host residency at any
already-issued VPN, and never lowers the issue counter. -/
theorem vmm_step_keep (s : VMState) (op : VMOp) (v : Nat)
    (hfree : VMOp.isFree op = false) (hv : v < s.next_vpn) :
    hostKeepPT s.page_table (vmm_step s op).page_table v ∧
    s.next_vpn ≤ (vmm_step s op).next_vpn := by
  cases op with
  | alloc bytes pre =>
    exact ⟨allocate_hostKeep s bytes pre v hv, allocate_next_le s bytes pre⟩
  | free vaddr => exact Bool.noConfusion hfree
  | mapToCpu vaddr =>
    exact ⟨map_to_cpu_hostKeep s vaddr v, Nat.le_of_eq (map_to_cpu_next s vaddr).symm⟩
  | mapToGpu vaddr =>
    exact ⟨map_to_gpu_hostKeep s vaddr v, Nat.le_of_eq (map_to_gpu_next s vaddr).symm⟩
  | prefetchToGpu vaddr =>
    exact ⟨map_to_gpu_hostKeep s vaddr v, Nat.le_of_eq (map_to_gpu_next s vaddr).symm⟩
  | touch vaddr w =>
    exact ⟨touch_hostKeep s vaddr w v, Nat.le_of_eq (touch_next s vaddr w).symm⟩
  | read vaddr buf =>
    exact ⟨read_hostKeep s vaddr buf v, Nat.le_of_eq (read_next s vaddr buf).symm⟩
  | write vaddr buf =>
    exact ⟨write_hostKeep s vaddr buf v, Nat.le_of_eq (write_next s vaddr buf).symm⟩

/-- C10: once a page is host-resident, no public operation other than
`free` ever clears its host residency or host address: over any sequence
of non-`free` façade calls (mapping to either domain, prefetching, the
fault resolutions and synchronous migrations they run, and device
eviction) the VPN still holds a host-resident entry with the same host
address. The VPN is assumed below the issue counter, as holds for every
VPN ever handed out. -/
theorem host_residency_persistent (ops : List VMOp) :
    ∀ (s : VMState) (vpn : Nat) (e : PageTableEntry),
      (∀ op ∈ ops, VMOp.isFree op = false) →
      vpn < s.next_vpn →
      lookup_entry s.page_table vpn = some e →
      e.resident_on_cpu = true →
      ∃ e2, lookup_entry (vmm_run s ops).page_table vpn = some e2 ∧
        e2.resident_on_cpu = true ∧ e2.cpu_address = e.cpu_address := by
  induction ops with
  | nil =>
    intro s vpn e _ _ he hr
    exact ⟨e, he, hr, rfl⟩
  | cons op rest ih =>
    intro s vpn e hops hv he hr
    have hstep := vmm_step_keep s op vpn (hops op (List.mem_cons_self op rest)) hv
    obtain ⟨e1, he1, hr1, ha1⟩ := hstep.1 e he hr
    have hv1 : vpn < (vmm_step s op).next_vpn := Nat.lt_of_lt_of_le hv hstep.2
    obtain ⟨e2, he2, hr2, ha2⟩ := ih (vmm_step s op) vpn e1
      (fun o ho => hops o (List.mem_cons_of_mem op ho)) hv1 he1 hr1
    exact ⟨e2, he2, hr2, ha2.trans ha1⟩

/-- Concrete run of C10's theorem: the host-resident VPN 0 of the
device-exhausted fixture survives a `map_to_gpu` (which runs the whole
device fault body) followed by a dirtying touch. -/
theorem host_residency_persistent_witness :
    ((∀ op ∈ [VMOp.mapToGpu 0, VMOp.touch 0 true], VMOp.isFree op = false) ∧
      0 < stateDeviceExhausted.next_vpn ∧
      lookup_entry stateDeviceExhausted.page_table 0 = some hostEntry ∧
      hostEntry.resident_on_cpu = true) ∧
    ∃ e2, lookup_entry
        (vmm_run stateDeviceExhausted [VMOp.mapToGpu 0, VMOp.touch 0 true]).page_table 0 =
        some e2 ∧
      e2.resident_on_cpu = true ∧ e2.cpu_address = hostEntry.cpu_address :=
  ⟨⟨by decide, by decide, by decide, by decide⟩,
    host_residency_persistent [VMOp.mapToGpu 0, VMOp.touch 0 true]
      stateDeviceExhausted 0 hostEntry (by decide) (by decide) (by decide) (by decide)⟩

end UvmSim
